import Mathlib

/-!
# Handshake session and encrypted peer channel (`protocol/peer.go`)

The file holds the definitions of three parts of the repository first (the handshake
session of `protocol/peer.go`, `FilterPeers` of `network/utils.go`, the connection adapter of
`skademlia/connection.go`), and then the theorems about them, part by part.

A shallow embedding of `protocol/peer.go`.  The session record is passed
explicitly; every method returns its Go result together with the session after
the call.  Go panics are an explicit result, and the session returned with a
panic is the session as the panic left it.

External collaborators are taken as they are used by the source:

* `IdentityAdapter` (an interface): signature size, `Sign`, `Verify`;
* `MessageAdapter` (an interface): the transport, with a log of what was handed
  to `SendMessage` and a count of `Close` calls;
* `Lib`: the behaviour of `dhkx`, `sha256.Sum256` and the AEAD `Seal`/`Open`.
-/

namespace Protocol

/-- Byte strings; every element is meant to be below 256. -/
abbrev Bytes := List Nat

/-- Go `error` values.  `errorsNew msg` is a value made by `errors.New(msg)` or
`errors.Errorf` in the returning function itself; `external msg` is an error value
handed back by a capability or a library and passed on unchanged by `return err`;
`sentinel name` is a package-level error variable such as `ErrBucketFull`, which is
compared by identity. -/
inductive GoError where
  | errorsNew (msg : String)
  | external (msg : String)
  | sentinel (name : String)
  deriving DecidableEq, Repr

/-- What a call produced: a normal return with a value, a normal return with a
non-nil `error`, or a run-time panic. -/
inductive Result (α : Type) where
  | ok (a : α)
  | error (e : GoError)
  | panic (msg : String)
  deriving DecidableEq, Repr

/-- The `KeyExchangeState` enumeration, in the order of the `iota` block. -/
inductive KeyExchangeState where
  | Invalid
  | PassivelyWaitForPublicKey
  | ActivelyWaitForPublicKey
  | Failed
  | Done
  deriving DecidableEq, Repr

/-- The identity capability (`IdentityAdapter` interface).  `SignatureSize` is
taken to be non-negative.  `Verify id data sig` follows the argument order of
the call in `continueKeyExchange`. -/
structure IdentityAdapter where
  SignatureSize : Nat
  Sign : Bytes → Bytes
  Verify : Bytes → Bytes → Bytes → Bool

/-- The transport capability (`MessageAdapter` interface).  `sendErr` is the
behaviour of the transport: the error (or `none` for `nil`) that `SendMessage`
returns, given everything sent before and the message.  `sent` logs every
message handed to `SendMessage`, in order, and `closeCalls` counts the calls of
`Close`. -/
structure MessageAdapter where
  remote : Bytes
  sendErr : List Bytes → Bytes → Option GoError
  sent : List Bytes
  closeCalls : Nat

/-- The method `adapter.SendMessage(c, msg)`: logs the message and returns the
transport's verdict. -/
def MessageAdapter.SendMessage (a : MessageAdapter) (msg : Bytes) :
    Option GoError × MessageAdapter :=
  (a.sendErr a.sent msg, { a with sent := a.sent ++ [msg] })

/-- The method `adapter.RemoteEndpoint()`. -/
def MessageAdapter.RemoteEndpoint (a : MessageAdapter) : Bytes := a.remote

/-- The method `adapter.Close()`. -/
def MessageAdapter.Close (a : MessageAdapter) : MessageAdapter :=
  { a with closeCalls := a.closeCalls + 1 }

/-- A `dhkx.DHGroup` value (prime and generator). -/
structure DHGroup where
  p : Nat
  g : Nat
  deriving DecidableEq, Repr

/-- A `dhkx.DHKey` value (private and public part). -/
structure DHKey where
  x : Nat
  y : Nat
  deriving DecidableEq, Repr

/-- The 32-byte array returned by `sha256.Sum256`. -/
abbrev Hash32 := { l : Bytes // l.length = 32 }

/-- The block cipher returned by `aes.NewCipher`. -/
structure AESCipher where
  key : Bytes
  deriving DecidableEq, Repr

/-- The `cipher.AEAD` returned by `cipher.NewGCM`: AES-GCM under `key`. -/
structure AEAD where
  key : Bytes
  deriving DecidableEq, Repr

/-- The library behaviour the session relies on.

* `keyBytes k` is `k.Bytes()`, the public value of a keypair;
* `ComputeKey g raw k` is `dhkx.NewPublicKey(raw)`, then `g.ComputeKey(_, k)`,
  then `.Bytes()` of the shared key, or the error message of `ComputeKey`;
* `Sum256` is `sha256.Sum256`;
* `Seal a nonce body` is `a.Seal(nil, nonce, body, nil)`;
* `Open a nonce raw` is `a.Open(nil, nonce, raw, nil)`. -/
structure Lib where
  keyBytes : DHKey → Bytes
  ComputeKey : DHGroup → Bytes → DHKey → Except String Bytes
  Sum256 : Bytes → Hash32
  Seal : AEAD → Bytes → Bytes → Bytes
  Open : AEAD → Bytes → Bytes → Except String Bytes

/-- The function `aes.NewCipher`: a key of 16, 24 or 32 bytes is accepted, any other
length is a `KeySizeError`. -/
def aesNewCipher (key : Bytes) : Except String AESCipher :=
  if key.length = 16 ∨ key.length = 24 ∨ key.length = 32 then .ok ⟨key⟩
  else .error "crypto/aes: invalid key size"

/-- The block size of an AES cipher. -/
def AESCipher.BlockSize (_c : AESCipher) : Nat := 16

/-- The function `cipher.NewGCM`: requires a 128-bit block cipher. -/
def cipherNewGCM (c : AESCipher) : Except String AEAD :=
  if c.BlockSize ≠ 16 then .error "cipher: NewGCM requires 128-bit block cipher"
  else .ok ⟨c.key⟩

/-- A channel that is only ever closed (`kxDone chan struct{}`).  `closes`
counts the `close(ch)` statements executed on it; the channel is closed as soon
as one was executed, and executing `close` on a closed channel panics. -/
structure Chan where
  closes : Nat
  deriving DecidableEq, Repr

/-- Whether the channel is closed. -/
def Chan.closed (ch : Chan) : Bool := decide (0 < ch.closes)

/-- The built-in `make(chan struct{})`. -/
def makeChan : Chan := ⟨0⟩

/-- The `EstablishedPeer` struct; the embedded mutex is left out, every method
below is one critical section. `localNonce` and `remoteNonce` are `uint64`. -/
structure EstablishedPeer where
  adapter : MessageAdapter
  kxState : KeyExchangeState
  kxDone : Chan
  dhGroup : Option DHGroup
  dhKeypair : Option DHKey
  aead : Option AEAD
  localNonce : Nat
  remoteNonce : Nat
  closed : Bool

/-- The built-in `copy(dst, src)`: the first `min (len dst) (len src)` elements of
`dst` are overwritten; the result is the new content of `dst`. -/
def goCopy (dst src : Bytes) : Bytes :=
  src.take (min dst.length src.length) ++ dst.drop (min dst.length src.length)

/-- The function `prependSimpleSignature`. -/
def prependSimpleSignature (idAdapter : IdentityAdapter) (data : Bytes) : Bytes :=
  let ret := List.replicate (idAdapter.SignatureSize + data.length) 0
  let ret := goCopy ret (idAdapter.Sign data)
  ret.take idAdapter.SignatureSize ++ goCopy (ret.drop idAdapter.SignatureSize) data

/-- The function `EstablishPeerWithMessageAdapter`.  The second component is the transport
after the call (it has seen the send also when establishment fails). -/
def EstablishPeerWithMessageAdapter (L : Lib) (dhGroup : Option DHGroup)
    (dhKeypair : Option DHKey) (idAdapter : IdentityAdapter) (adapter : MessageAdapter)
    (passive : Bool) : Result EstablishedPeer × MessageAdapter :=
  let peer : EstablishedPeer :=
    { adapter := adapter, kxState := .Invalid, kxDone := makeChan, dhGroup := dhGroup,
      dhKeypair := dhKeypair, aead := none, localNonce := 0, remoteNonce := 0,
      closed := false }
  if passive then
    (.ok { peer with kxState := .PassivelyWaitForPublicKey }, adapter)
  else
    let peer := { peer with kxState := .ActivelyWaitForPublicKey }
    match peer.dhKeypair with
    | none => (.panic "nil pointer dereference", adapter)
    | some kp =>
      let r := peer.adapter.SendMessage (prependSimpleSignature idAdapter (L.keyBytes kp))
      match r.1 with
      | some err => (.error err, r.2)
      | none => (.ok { peer with adapter := r.2 }, r.2)

/-- The statements `close(p.kxDone); return r`. -/
def closeKxDoneAndReturn (p : EstablishedPeer) (r : Result Unit) :
    Result Unit × EstablishedPeer :=
  if p.kxDone.closed then
    (.panic "close of closed channel", { p with kxDone := ⟨p.kxDone.closes + 1⟩ })
  else
    (r, { p with kxDone := ⟨p.kxDone.closes + 1⟩ })

/-- The statements `p.kxState = KeyExchange_Failed; close(p.kxDone); return err`. -/
def failKeyExchange (p : EstablishedPeer) (err : GoError) : Result Unit × EstablishedPeer :=
  closeKxDoneAndReturn { p with kxState := .Failed } (.error err)

/-- The method `continueKeyExchange`.  A nil `dhGroup` or `dhKeypair` at the call of
`ComputeKey` is a nil-pointer panic. -/
def EstablishedPeer.continueKeyExchange (L : Lib) (p : EstablishedPeer)
    (idAdapter : IdentityAdapter) (raw : Bytes) : Result Unit × EstablishedPeer :=
  match p.kxState with
  | .ActivelyWaitForPublicKey | .PassivelyWaitForPublicKey =>
    if raw.length < idAdapter.SignatureSize then
      failKeyExchange p (.errorsNew "incomplete message")
    else
      let sig := raw.take idAdapter.SignatureSize
      let rawPubKey := raw.drop idAdapter.SignatureSize
      if idAdapter.Verify p.adapter.RemoteEndpoint rawPubKey sig = false then
        failKeyExchange p (.errorsNew "signature verification failed")
      else
        match p.dhGroup, p.dhKeypair with
        | some g, some kp =>
          match L.ComputeKey g rawPubKey kp with
          | .error err => failKeyExchange p (.external err)
          | .ok sharedKey =>
            let p1 :=
              if p.kxState = .PassivelyWaitForPublicKey then
                { p with adapter :=
                    (p.adapter.SendMessage (prependSimpleSignature idAdapter (L.keyBytes kp))).2 }
              else p
            let p2 := { p1 with dhGroup := none, dhKeypair := none }
            let aesKey := L.Sum256 sharedKey
            match aesNewCipher aesKey.val with
            | .error err => failKeyExchange p2 (.external err)
            | .ok aesCipher =>
              match cipherNewGCM aesCipher with
              | .error err => failKeyExchange p2 (.external err)
              | .ok aead =>
                closeKxDoneAndReturn { p2 with aead := some aead, kxState := .Done } (.ok ())
        | _, _ => (.panic "nil pointer dereference", p)
  | .Failed => (.error (.errorsNew "failed previously"), p)
  | _ => (.panic "unexpected key exchange state", p)

/-- The method `Close`. -/
def EstablishedPeer.Close (p : EstablishedPeer) : Result Unit × EstablishedPeer :=
  if !p.closed then
    let p1 := { p with closed := true }
    let p2 := { p1 with adapter := p1.adapter.Close }
    if p2.kxState ≠ .Done ∧ p2.kxState ≠ .Failed then
      closeKxDoneAndReturn { p2 with kxState := .Failed } (.ok ())
    else (.ok (), p2)
  else (.ok (), p)

/-- The function `binary.LittleEndian.PutUint64(b, v)` on a buffer of at least 8 bytes. -/
def LittleEndian_PutUint64 (b : Bytes) (v : Nat) : Bytes :=
  [v % 256, (v >>> 8) % 256, (v >>> 16) % 256, (v >>> 24) % 256,
   (v >>> 32) % 256, (v >>> 40) % 256, (v >>> 48) % 256, (v >>> 56) % 256] ++ b.drop 8

/-- The statements `nonceBuffer := make([]byte, 12)` and
`binary.LittleEndian.PutUint64(nonceBuffer, counter)`. -/
def nonceBuffer (counter : Nat) : Bytes :=
  LittleEndian_PutUint64 (List.replicate 12 0) counter

/-- The increment `counter++` of a `uint64`. -/
def incUint64 (counter : Nat) : Nat := (counter + 1) % 2 ^ 64

/-- The method `SendMessage`.  A nil `aead` is a nil-pointer panic at `Seal`, after the
counter was incremented. -/
def EstablishedPeer.SendMessage (L : Lib) (p : EstablishedPeer) (body : Bytes) :
    Result Unit × EstablishedPeer :=
  let nonce := nonceBuffer p.localNonce
  let p1 := { p with localNonce := incUint64 p.localNonce }
  match p1.aead with
  | none => (.panic "nil pointer dereference", p1)
  | some aead =>
    let cipherText := L.Seal aead nonce body
    let r := p1.adapter.SendMessage cipherText
    match r.1 with
    | some err => (.error err, { p1 with adapter := r.2 })
    | none => (.ok (), { p1 with adapter := r.2 })

/-- The method `UnwrapMessage`.  A nil `aead` is a nil-pointer panic at `Open`, after the
counter was incremented. -/
def EstablishedPeer.UnwrapMessage (L : Lib) (p : EstablishedPeer) (raw : Bytes) :
    Result Bytes × EstablishedPeer :=
  let nonce := nonceBuffer p.remoteNonce
  let p1 := { p with remoteNonce := incUint64 p.remoteNonce }
  match p1.aead with
  | none => (.panic "nil pointer dereference", p1)
  | some aead =>
    match L.Open aead nonce raw with
    | .error err => (.error (.external err), p1)
    | .ok body => (.ok body, p1)

/-- One method call on a session.  Every call carries the library behaviour and the
capabilities it runs with, so these may differ from call to call. -/
inductive Call where
  | continueKeyExchange (L : Lib) (idAdapter : IdentityAdapter) (raw : Bytes)
  | Close
  | SendMessage (L : Lib) (body : Bytes)
  | UnwrapMessage (L : Lib) (raw : Bytes)

/-- The message of the panic a result stands for, if it is one. -/
def Result.panicMsg {α : Type} : Result α → Option String
  | .panic msg => some msg
  | _ => none

/-- The session after one call. -/
def Call.next (p : EstablishedPeer) : Call → EstablishedPeer
  | .continueKeyExchange L idAdapter raw => (p.continueKeyExchange L idAdapter raw).2
  | .Close => p.Close.2
  | .SendMessage L body => (p.SendMessage L body).2
  | .UnwrapMessage L raw => (p.UnwrapMessage L raw).2

/-- The panic one call ends in, if it panics. -/
def Call.panicMsg (p : EstablishedPeer) : Call → Option String
  | .continueKeyExchange L idAdapter raw => (p.continueKeyExchange L idAdapter raw).1.panicMsg
  | .Close => p.Close.1.panicMsg
  | .SendMessage L body => (p.SendMessage L body).1.panicMsg
  | .UnwrapMessage L raw => (p.UnwrapMessage L raw).1.panicMsg

/-- The session after a finite sequence of calls; a call that panicked leaves the session
as the panic left it and the sequence goes on. -/
def runCalls (p : EstablishedPeer) : List Call → EstablishedPeer
  | [] => p
  | c :: cs => runCalls (c.next p) cs

/-- Whether a call is a `continueKeyExchange` call. -/
def Call.isContinueKeyExchange : Call → Bool
  | .continueKeyExchange _ _ _ => true
  | _ => false

/-- A session that `EstablishPeerWithMessageAdapter` returned and that then went through a
finite sequence of method calls. -/
def Reachable (p : EstablishedPeer) : Prop :=
  ∃ (L : Lib) (dhGroup : Option DHGroup) (dhKeypair : Option DHKey)
    (idAdapter : IdentityAdapter) (adapter : MessageAdapter) (passive : Bool)
    (p0 : EstablishedPeer) (ad : MessageAdapter) (calls : List Call),
    EstablishPeerWithMessageAdapter L dhGroup dhKeypair idAdapter adapter passive = (.ok p0, ad) ∧
    runCalls p0 calls = p

/-- The state is `Done` or `Failed`. -/
def KeyExchangeState.terminal (s : KeyExchangeState) : Bool :=
  decide (s = .Done ∨ s = .Failed)

/-- The number of `close(kxDone)` statements executed so far is one in a terminal state
and zero in every other state. -/
def KxDoneInv (p : EstablishedPeer) : Prop :=
  p.kxDone.closes = if p.kxState.terminal then 1 else 0

/-- Secret lifetime: in state `Done` the Diffie-Hellman group and keypair are nil and the
AEAD context is set. -/
def SecretInv (p : EstablishedPeer) : Prop :=
  p.kxState = .Done → p.dhGroup = none ∧ p.dhKeypair = none ∧ p.aead.isSome = true

/-- The counter values from which consecutive `SendMessage` calls, one call per body, build
their nonces. -/
def sendCounters (L : Lib) : EstablishedPeer → List Bytes → List Nat
  | _, [] => []
  | p, body :: rest => p.localNonce :: sendCounters L (p.SendMessage L body).2 rest

/-- The nonces used by consecutive `SendMessage` calls, one call per body. -/
def sendNonces (L : Lib) (p : EstablishedPeer) (bodies : List Bytes) : List Bytes :=
  (sendCounters L p bodies).map nonceBuffer

/-- The session after consecutive `SendMessage` calls, one call per body. -/
def sendAll (L : Lib) : EstablishedPeer → List Bytes → EstablishedPeer
  | p, [] => p
  | p, body :: rest => sendAll L (p.SendMessage L body).2 rest

/-- The library `L` with a `Seal` that answers the nonce it is called with, so that the nonce
of every `Seal` call of `SendMessage` shows in the transport log. -/
def nonceProbe (L : Lib) : Lib :=
  { L with Seal := fun _ nonce _ => nonce }

/-- The nonces that consecutive `SendMessage` calls, one call per body, hand to `Seal`: what
the calls add to the transport log when `Seal` answers its nonce. -/
def sealedNonces (L : Lib) (p : EstablishedPeer) (bodies : List Bytes) : List Bytes :=
  (sendAll (nonceProbe L) p bodies).adapter.sent.drop p.adapter.sent.length

/-- The 64-bit counter value that a nonce carries in its first eight bytes, little-endian
(as `binary.LittleEndian.Uint64` reads it). -/
def nonceCounter (nonce : Bytes) : Nat :=
  nonce.getD 0 0 + nonce.getD 1 0 * 256 + nonce.getD 2 0 * 256 ^ 2 + nonce.getD 3 0 * 256 ^ 3 +
  nonce.getD 4 0 * 256 ^ 4 + nonce.getD 5 0 * 256 ^ 5 + nonce.getD 6 0 * 256 ^ 6 +
  nonce.getD 7 0 * 256 ^ 7

/-- The session after `n` consecutive `Close` calls. -/
def closeTimes : Nat → EstablishedPeer → EstablishedPeer
  | 0, p => p
  | n + 1, p => closeTimes n p.Close.2

/-- The transport saw `c0` calls of `Close` before the session existed: it has seen one
more exactly when the session is closed, and a closed session is in a terminal state. -/
def CloseInv (c0 : Nat) (p : EstablishedPeer) : Prop :=
  p.adapter.closeCalls = c0 + (if p.closed then 1 else 0) ∧
  (p.closed = true → p.kxState.terminal = true)

/-- In-order delivery from session `A` to session `B`: for each body, `A` sends it and `B`
unwraps the ciphertext that `A` handed to its transport.  The list holds what `B` got. -/
def deliverInOrder (L : Lib) : EstablishedPeer → EstablishedPeer → List Bytes →
    List (Result Bytes)
  | _, _, [] => []
  | A, B, body :: rest =>
    match (A.SendMessage L body).2.adapter.sent.getLast? with
    | none => []
    | some cipherText =>
      (B.UnwrapMessage L cipherText).1 ::
        deliverInOrder L (A.SendMessage L body).2 (B.UnwrapMessage L cipherText).2 rest

/-! ## Sample capabilities, used to instantiate the theorems -/

/-- A sample identity capability with two-byte signatures. -/
def sampleIdentity : IdentityAdapter where
  SignatureSize := 2
  Sign := fun data => [data.sum % 256, 7]
  Verify := fun _ data sig => decide (sig = [data.sum % 256, 7])

/-- A sample transport that accepts every message. -/
def sampleAdapter : MessageAdapter where
  remote := [1]
  sendErr := fun _ _ => none
  sent := []
  closeCalls := 0

/-- A sample transport that refuses every message. -/
def brokenAdapter : MessageAdapter where
  remote := [1]
  sendErr := fun _ _ => some (.external "broken pipe")
  sent := []
  closeCalls := 0

/-- A sample library: textbook Diffie-Hellman on one-byte values, a checksum in place of
SHA-256, and an AEAD that prepends the nonce and the key checksum. -/
def sampleLib : Lib where
  keyBytes := fun k => [k.y]
  ComputeKey := fun g raw k =>
    match raw with
    | [y] => if 0 < y ∧ y < g.p then .ok [y ^ k.x % g.p] else .error "DH: invalid public key"
    | _ => .error "DH: invalid public key"
  Sum256 := fun b => ⟨List.replicate 32 (b.sum % 256), List.length_replicate 32 _⟩
  Seal := fun a nonce body => nonce ++ [a.key.sum % 256] ++ body
  Open := fun a nonce raw =>
    if raw.take 13 = nonce ++ [a.key.sum % 256] then .ok (raw.drop 13)
    else .error "cipher: message authentication failed"

/-- A sample group: modulus 23, generator 5. -/
def sampleGroup : DHGroup := ⟨23, 5⟩

/-- A sample keypair: private 6, public `5 ^ 6 % 23 = 8`. -/
def sampleKeyA : DHKey := ⟨6, 8⟩

/-- A sample keypair: private 15, public `5 ^ 15 % 23 = 19`. -/
def sampleKeyB : DHKey := ⟨15, 19⟩

/-- The session `EstablishPeerWithMessageAdapter` returns in the active role for the
sample capabilities: the signed public value `[8, 7, 8]` was sent. -/
def sampleActivePeer : EstablishedPeer where
  adapter := { sampleAdapter with sent := [[8, 7, 8]] }
  kxState := .ActivelyWaitForPublicKey
  kxDone := ⟨0⟩
  dhGroup := some sampleGroup
  dhKeypair := some sampleKeyA
  aead := none
  localNonce := 0
  remoteNonce := 0
  closed := false

/-- The session `EstablishPeerWithMessageAdapter` returns in the passive role for the
sample capabilities. -/
def samplePassivePeer : EstablishedPeer where
  adapter := sampleAdapter
  kxState := .PassivelyWaitForPublicKey
  kxDone := ⟨0⟩
  dhGroup := some sampleGroup
  dhKeypair := some sampleKeyB
  aead := none
  localNonce := 0
  remoteNonce := 0
  closed := false

/-- The active sample session after `continueKeyExchange` failed on a too short input. -/
def sampleFailedPeer : EstablishedPeer :=
  { sampleActivePeer with kxState := .Failed, kxDone := ⟨1⟩ }

/-- A sample sequence of calls that completes the handshake of the passive sample session,
sends a message and closes the session. -/
def sampleDoneCalls : List Call :=
  [.continueKeyExchange sampleLib sampleIdentity [8, 7, 8], .SendMessage sampleLib [1, 2],
   .Close]

/-- The passive sample session after its handshake completed. -/
def sampleDonePeer : EstablishedPeer :=
  (samplePassivePeer.continueKeyExchange sampleLib sampleIdentity [8, 7, 8]).2

/-- A completed sample session whose two counters hold the largest 64-bit value. -/
def sampleWrapPeer : EstablishedPeer :=
  { sampleDonePeer with localNonce := 18446744073709551615,
                        remoteNonce := 18446744073709551615 }

/-- The active sample session after its handshake completed. -/
def sampleActiveDonePeer : EstablishedPeer :=
  (sampleActivePeer.continueKeyExchange sampleLib sampleIdentity [19, 7, 19]).2

/-- A sample sequence of calls. -/
def sampleCalls : List Call :=
  [.continueKeyExchange sampleLib sampleIdentity [3], .Close,
   .continueKeyExchange sampleLib sampleIdentity [19, 7, 19], .SendMessage sampleLib [1, 2]]

end Protocol

/-! # Peer address filtering (`network/utils.go`) -/

namespace Network

/-- The loop of `FilterPeers`.  `visited` holds the keys of the map `visited`, `filtered` the
slice built so far.  `ToUnifiedAddress` (same package, another file) is taken as it is used:
it returns the resolved address or an error. -/
def FilterPeers.loop (ToUnifiedAddress : String → Except String String) :
    List String → List String → List String → List String
  | _, filtered, [] => filtered
  | visited, filtered, peerAddress :: rest =>
    if peerAddress.isEmpty then
      FilterPeers.loop ToUnifiedAddress visited filtered rest
    else
      match ToUnifiedAddress peerAddress with
      | .error _ => FilterPeers.loop ToUnifiedAddress visited filtered rest
      | .ok resolved =>
        if resolved ∈ visited then
          FilterPeers.loop ToUnifiedAddress visited filtered rest
        else
          FilterPeers.loop ToUnifiedAddress (resolved :: visited) (filtered ++ [resolved]) rest

/-- The function `FilterPeers`. -/
def FilterPeers (ToUnifiedAddress : String → Except String String) (address : String)
    (peers : List String) : List String :=
  FilterPeers.loop ToUnifiedAddress [address] [] peers

/-- Reference, step 1: the peers in input order, without the empty strings and without the
entries that do not resolve, each replaced by its resolved address. -/
def resolvedPeers (ToUnifiedAddress : String → Except String String) (peers : List String) :
    List String :=
  peers.filterMap (fun s => if s = "" then none else (ToUnifiedAddress s).toOption)

/-- Reference, step 2: every element is kept at its first occurrence only. -/
def firstOccurrences : List String → List String
  | [] => []
  | x :: xs => x :: (firstOccurrences xs).filter (fun y => decide (y ≠ x))

/-- The reference filter: resolve, keep first occurrences, drop what equals
`address`. -/
def FilterPeers_reference (ToUnifiedAddress : String → Except String String)
    (address : String) (peers : List String) : List String :=
  (firstOccurrences (resolvedPeers ToUnifiedAddress peers)).filter
    (fun y => decide (y ≠ address))

end Network

/-! # The connection adapter (`skademlia/connection.go`)

The routing table, the discovery service, the node and the message adapter constructor are
declared in files that are not among the sources.  They are taken as they are used: every
call on them is recorded as an `Event`, and what a call answers may depend on everything
that happened before (the list of events so far). -/

namespace Skademlia

open Protocol (Bytes GoError Result MessageAdapter)

/-- The `ID` struct of the package: public key, address and the hashed identity `Id`. -/
structure ID where
  PublicKey : Bytes
  Address : String
  Id : Bytes
  deriving DecidableEq, Repr

/-- The `peer.ID` values handed to `Bootstrap`; only these two fields are used. -/
structure PeerID where
  PublicKey : Bytes
  Address : String
  deriving DecidableEq, Repr

/-- An established `net.Conn`. -/
structure Conn where
  id : Nat
  deriving DecidableEq, Repr

/-- The calls on the collaborators, in the order in which they happen. -/
inductive Event where
  | GetPeerFromPublicKey (remote : Bytes)
  | dialer (address : String)
  | NewMessageAdapter (conn : Conn) (localID remote : Bytes) (localAddr remoteAddr : String)
      (passive : Bool)
  | Update (id : ID)
  | EvictLastSeenPeer (id : Bytes)
  | Broadcast (body : Bytes)
  deriving DecidableEq, Repr

/-- The routing table `Routes` of the discovery service: its own identity `self`, the
lookup by public key (`none` for `ok == false`) and `Update` (`none` for a nil error). -/
structure RoutingTable where
  self : ID
  GetPeerFromPublicKey : List Event → Bytes → Option ID
  Update : List Event → ID → Option GoError

/-- The discovery `Service`: the routing table and `EvictLastSeenPeer`, which answers
`(ok, err)`. -/
structure Service where
  Routes : RoutingTable
  EvictLastSeenPeer : List Event → Bytes → Bool × Option GoError

/-- The `protocol.Node`, of which only `Broadcast` is used. -/
structure Node where
  Broadcast : List Event → Bytes → Option GoError

/-- The `ConnectionAdapter` struct.  The listener is left out (only `EstablishPassively`
uses it); the dialer is taken to be a non-nil function. -/
structure ConnectionAdapter where
  dialer : List Event → String → Except GoError Conn
  discovery : Option Service
  node : Option Node

/-- Package-level functions of other files: `NewID`, `base.NewMessageAdapter` (which answers
an adapter and an error), and the result of
`ToMessageBody(ServiceID, OpCodePing, &protobuf.Ping{})`. -/
structure Package where
  NewID : Bytes → String → ID
  NewMessageAdapter : List Event → Conn → Bytes → Bytes → String → String → Bool →
    Option MessageAdapter × Option GoError
  pingBody : Except GoError Bytes

/-- The error variable `ErrBucketFull`. -/
def ErrBucketFull : GoError := .sentinel "ErrBucketFull"

/-- One hexadecimal digit, lower case. -/
def hexDigit (n : Nat) : Char :=
  if n < 10 then Char.ofNat (48 + n) else Char.ofNat (87 + n)

/-- The function `hex.EncodeToString`. -/
def hexEncode (b : Bytes) : String :=
  String.mk (b.flatMap (fun x => [hexDigit (x / 16 % 16), hexDigit (x % 16)]))

/-- Modelled from the spec: the method `PublicKeyHex` of `ID` is not among the sources; the
spec gives an identity its `publicKey: bytes`, and by its name the method is the hexadecimal
form of that key.  Only the text of one error message depends on it. -/
def ID.PublicKeyHex (id : ID) : String := hexEncode id.PublicKey

/-- The method `EstablishActively`.  Returns the pair `(adapter, error)` and the events so
far. -/
def ConnectionAdapter.EstablishActively (a : ConnectionAdapter) (pkg : Package)
    (trace : List Event) (localID remote : Bytes) :
    (Option MessageAdapter × Option GoError) × List Event :=
  match a.discovery with
  | none => ((none, some (.errorsNew "skademlia: connection not setup with a service")), trace)
  | some discovery =>
    if localID = remote then
      ((none, some (.errorsNew "skademlia: skip connecting to self pk")), trace)
    else
      let localPeer := discovery.Routes.self
      if ¬ localID = localPeer.PublicKey then
        ((none, some (.errorsNew ("skademlia: invalid local peer: " ++ hexEncode localID ++
          " != " ++ discovery.Routes.self.PublicKeyHex))), trace)
      else
        let trace1 := trace ++ [Event.GetPeerFromPublicKey remote]
        match discovery.Routes.GetPeerFromPublicKey trace remote with
        | none =>
          ((none, some (.errorsNew ("skademlia: remote ID " ++ hexEncode remote ++
            " not found in routing table"))), trace1)
        | some remotePeer =>
          if localPeer.Address = remotePeer.Address then
            ((none, some (.errorsNew "Skip connecting to self address")), trace1)
          else
            let trace2 := trace1 ++ [Event.dialer remotePeer.Address]
            match a.dialer trace1 remotePeer.Address with
            | .error err => ((none, some err), trace2)
            | .ok conn =>
              (pkg.NewMessageAdapter trace2 conn localID remote localPeer.Address
                remotePeer.Address false,
               trace2 ++ [Event.NewMessageAdapter conn localID remote localPeer.Address
                remotePeer.Address false])

/-- The method `AddPeerID`; the logging is left out.  Without a discovery service the first
statement dereferences nil. -/
def ConnectionAdapter.AddPeerID (a : ConnectionAdapter) (pkg : Package) (trace : List Event)
    (remote : Bytes) (addr : String) : Result Unit × List Event :=
  match a.discovery with
  | none => (.panic "nil pointer dereference", trace)
  | some discovery =>
    let id := pkg.NewID remote addr
    let err := discovery.Routes.Update trace id
    let trace1 := trace ++ [Event.Update id]
    if err = some ErrBucketFull then
      let trace2 := trace1 ++ [Event.EvictLastSeenPeer id.Id]
      if (discovery.EvictLastSeenPeer trace1 id.Id).1 then
        match discovery.Routes.Update trace2 id with
        | some err2 => (.error err2, trace2 ++ [Event.Update id])
        | none => (.ok (), trace2 ++ [Event.Update id])
      else (.ok (), trace2)
    else (.ok (), trace1)

/-- The loop `for _, peer := range peers` of `Bootstrap`. -/
def ConnectionAdapter.addPeers (a : ConnectionAdapter) (pkg : Package) :
    List Event → List PeerID → Result Unit × List Event
  | trace, [] => (.ok (), trace)
  | trace, peer :: rest =>
    match a.AddPeerID pkg trace peer.PublicKey peer.Address with
    | (.ok (), trace1) => ConnectionAdapter.addPeers a pkg trace1 rest
    | (r, trace1) => (r, trace1)

/-- The method `Bootstrap`. -/
def ConnectionAdapter.Bootstrap (a : ConnectionAdapter) (pkg : Package) (trace : List Event)
    (peers : List PeerID) : Result Unit × List Event :=
  match a.node with
  | none => (.error (.errorsNew "node not setup properly"), trace)
  | some node =>
    match a.discovery with
    | none => (.error (.errorsNew "discovery not setup properly"), trace)
    | some _ =>
      if peers.length = 0 then (.ok (), trace)
      else
        match a.addPeers pkg trace peers with
        | (.ok (), trace1) =>
          match pkg.pingBody with
          | .error err => (.error err, trace1)
          | .ok body =>
            match node.Broadcast trace1 body with
            | some err => (.error err, trace1 ++ [Event.Broadcast body])
            | none => (.ok (), trace1 ++ [Event.Broadcast body])
        | (r, trace1) => (r, trace1)

/-- Whether an event is a call of the dialer. -/
def Event.isDial : Event → Bool
  | .dialer _ => true
  | _ => false

/-- Whether an event is a routing-table lookup. -/
def Event.isLookup : Event → Bool
  | .GetPeerFromPublicKey _ => true
  | _ => false

/-- Whether an event is a routing-table update or an eviction. -/
def Event.isInsertion : Event → Bool
  | .Update _ => true
  | .EvictLastSeenPeer _ => true
  | _ => false

/-! ## Sample collaborators -/

/-- The own identity of the sample table. -/
def sampleSelf : ID := ⟨[1], "tcp://a:1", [101]⟩

/-- A known peer of the sample table. -/
def sampleRemote : ID := ⟨[2], "tcp://b:2", [102]⟩

/-- A sample routing table: it knows `sampleRemote`, refuses to insert its own key and
accepts every other identity. -/
def sampleRoutes : RoutingTable where
  self := sampleSelf
  GetPeerFromPublicKey := fun _ pk => if pk = [2] then some sampleRemote else none
  Update := fun _ id =>
    if id.PublicKey = [1] then some (.external "skademlia: cannot add own identity") else none

/-- A sample routing table whose bucket is full at every `Update`. -/
def fullRoutes : RoutingTable where
  self := sampleSelf
  GetPeerFromPublicKey := fun _ _ => none
  Update := fun _ _ => some ErrBucketFull

/-- A sample node whose broadcast succeeds. -/
def sampleNode : Node where
  Broadcast := fun _ _ => none

/-- A fully wired sample adapter. -/
def sampleConnectionAdapter : ConnectionAdapter where
  dialer := fun _ _ => .ok ⟨7⟩
  discovery := some { Routes := sampleRoutes, EvictLastSeenPeer := fun _ _ => (false, none) }
  node := some sampleNode

/-- A fully wired sample adapter over the full table; its evictions report success. -/
def fullConnectionAdapter : ConnectionAdapter where
  dialer := fun _ _ => .ok ⟨7⟩
  discovery := some { Routes := fullRoutes, EvictLastSeenPeer := fun _ _ => (true, none) }
  node := some sampleNode

/-- A sample adapter as `NewConnectionAdapter` returns it: no node, no discovery service. -/
def unwiredConnectionAdapter : ConnectionAdapter where
  dialer := fun _ _ => .ok ⟨7⟩
  discovery := none
  node := none

/-- Sample package functions. -/
def samplePackage : Package where
  NewID := fun pk addr => ⟨pk, addr, pk.map (fun x => x + 100)⟩
  NewMessageAdapter := fun _ _ _ remote _ _ _ =>
    (some { remote := remote, sendErr := fun _ _ => none, sent := [], closeCalls := 0 }, none)
  pingBody := .ok [0]

end Skademlia

namespace Protocol

/-! ## Shared lemmas -/

theorem closeKxDoneAndReturn_state (p : EstablishedPeer) (r : Result Unit) :
    (closeKxDoneAndReturn p r).2 = { p with kxDone := ⟨p.kxDone.closes + 1⟩ } := by
  unfold closeKxDoneAndReturn; split <;> rfl

theorem closeKxDoneAndReturn_open (p : EstablishedPeer) (r : Result Unit)
    (h : p.kxDone.closes = 0) :
    closeKxDoneAndReturn p r = (r, { p with kxDone := ⟨1⟩ }) := by
  simp [closeKxDoneAndReturn, Chan.closed, h]

theorem establish_inv (L : Lib) (dhGroup : Option DHGroup) (dhKeypair : Option DHKey)
    (idAdapter : IdentityAdapter) (adapter : MessageAdapter) (passive : Bool)
    (p : EstablishedPeer) (ad : MessageAdapter)
    (h : EstablishPeerWithMessageAdapter L dhGroup dhKeypair idAdapter adapter passive
      = (.ok p, ad)) : KxDoneInv p ∧ SecretInv p := by
  unfold EstablishPeerWithMessageAdapter at h
  cases passive
  · cases dhKeypair with
    | none => simp at h
    | some kp =>
      simp only [Bool.false_eq_true, if_false] at h
      split at h
      · simp at h
      · simp only [Prod.mk.injEq, Result.ok.injEq] at h
        rw [← h.1]; simp [KxDoneInv, SecretInv, KeyExchangeState.terminal, makeChan]
  · simp only [if_true, Prod.mk.injEq, Result.ok.injEq] at h
    rw [← h.1]; simp [KxDoneInv, SecretInv, KeyExchangeState.terminal, makeChan]

theorem continueKeyExchange_inv (L : Lib) (p : EstablishedPeer) (idAdapter : IdentityAdapter)
    (raw : Bytes) (h : KxDoneInv p) :
    KxDoneInv (p.continueKeyExchange L idAdapter raw).2 ∧
    (p.continueKeyExchange L idAdapter raw).1.panicMsg ≠ some "close of closed channel" := by
  unfold EstablishedPeer.continueKeyExchange
  cases hs : p.kxState <;>
    simp only [KxDoneInv, hs, KeyExchangeState.terminal] at h ⊢ <;>
    simp at h <;>
    (repeat' split) <;>
    simp_all [failKeyExchange, closeKxDoneAndReturn_open, KxDoneInv, KeyExchangeState.terminal,
      Result.panicMsg]

theorem Close_inv (p : EstablishedPeer) (h : KxDoneInv p) :
    KxDoneInv p.Close.2 ∧ p.Close.1.panicMsg ≠ some "close of closed channel" := by
  unfold EstablishedPeer.Close
  cases hs : p.kxState <;>
    simp only [KxDoneInv, hs, KeyExchangeState.terminal] at h ⊢ <;>
    simp at h <;>
    (repeat' split) <;>
    simp_all [closeKxDoneAndReturn_open, KxDoneInv, KeyExchangeState.terminal,
      MessageAdapter.Close, Result.panicMsg]

theorem SendMessage_inv (L : Lib) (p : EstablishedPeer) (body : Bytes) (h : KxDoneInv p) :
    KxDoneInv (p.SendMessage L body).2 ∧
    (p.SendMessage L body).1.panicMsg ≠ some "close of closed channel" := by
  unfold EstablishedPeer.SendMessage
  simp only [KxDoneInv] at h ⊢
  (repeat' split) <;> simp_all [Result.panicMsg]

theorem UnwrapMessage_inv (L : Lib) (p : EstablishedPeer) (raw : Bytes) (h : KxDoneInv p) :
    KxDoneInv (p.UnwrapMessage L raw).2 ∧
    (p.UnwrapMessage L raw).1.panicMsg ≠ some "close of closed channel" := by
  unfold EstablishedPeer.UnwrapMessage
  simp only [KxDoneInv] at h ⊢
  (repeat' split) <;> simp_all [Result.panicMsg]

theorem Call_inv (p : EstablishedPeer) (c : Call) (h : KxDoneInv p) :
    KxDoneInv (c.next p) ∧ c.panicMsg p ≠ some "close of closed channel" := by
  cases c with
  | continueKeyExchange L idAdapter raw => exact continueKeyExchange_inv L p idAdapter raw h
  | Close => exact Close_inv p h
  | SendMessage L body => exact SendMessage_inv L p body h
  | UnwrapMessage L raw => exact UnwrapMessage_inv L p raw h

theorem runCalls_inv (calls : List Call) :
    ∀ p : EstablishedPeer, KxDoneInv p → KxDoneInv (runCalls p calls) := by
  induction calls with
  | nil => intro p h; exact h
  | cons c cs ih => intro p h; exact ih _ (Call_inv p c h).1

theorem Reachable_inv (p : EstablishedPeer) (h : Reachable p) : KxDoneInv p := by
  obtain ⟨L, g, k, idA, ad, passive, p0, ad0, calls, hE, hrun⟩ := h
  rw [← hrun]
  exact runCalls_inv calls p0 (establish_inv L g k idA ad passive p0 ad0 hE).1

theorem KxDoneInv_waiting (p : EstablishedPeer) (h : KxDoneInv p)
    (hs : p.kxState = .ActivelyWaitForPublicKey ∨ p.kxState = .PassivelyWaitForPublicKey) :
    p.kxDone.closes = 0 := by
  rcases hs with hs | hs <;> simp [KxDoneInv, hs, KeyExchangeState.terminal] at h <;> exact h

theorem goCopy_replicate_exact (n : Nat) (data : Bytes) (h : data.length = n) :
    goCopy (List.replicate n 0) data = data := by
  subst h
  simp [goCopy]

theorem prependSimpleSignature_length (idAdapter : IdentityAdapter) (data : Bytes) :
    (prependSimpleSignature idAdapter data).length = idAdapter.SignatureSize + data.length := by
  simp only [prependSimpleSignature, goCopy, List.length_append, List.length_take,
    List.length_drop, List.length_replicate]
  omega

theorem prependSimpleSignature_drop (idAdapter : IdentityAdapter) (data : Bytes) :
    (prependSimpleSignature idAdapter data).drop idAdapter.SignatureSize = data := by
  have h1 : (List.take idAdapter.SignatureSize
      (goCopy (List.replicate (idAdapter.SignatureSize + data.length) 0)
        (idAdapter.Sign data))).length = idAdapter.SignatureSize := by
    simp only [goCopy, List.length_append, List.length_take, List.length_drop,
      List.length_replicate]
    omega
  have h2 : (List.drop idAdapter.SignatureSize
      (goCopy (List.replicate (idAdapter.SignatureSize + data.length) 0)
        (idAdapter.Sign data))).length = data.length := by
    simp only [goCopy, List.length_append, List.length_take, List.length_drop,
      List.length_replicate]
    omega
  unfold prependSimpleSignature
  simp only []
  rw [List.drop_left' h1]
  simp [goCopy, h2]

theorem prependSimpleSignature_eq (idAdapter : IdentityAdapter) (data : Bytes)
    (h : (idAdapter.Sign data).length = idAdapter.SignatureSize) :
    prependSimpleSignature idAdapter data = idAdapter.Sign data ++ data := by
  have h0 : goCopy (List.replicate (idAdapter.SignatureSize + data.length) 0)
      (idAdapter.Sign data) = idAdapter.Sign data ++ List.replicate data.length 0 := by
    simp [goCopy, h, ← List.replicate_add]
  unfold prependSimpleSignature
  simp only [h0]
  rw [List.take_left' h, List.drop_left' h, goCopy_replicate_exact _ _ rfl]

theorem continueKeyExchange_success (L : Lib) (p : EstablishedPeer)
    (idAdapter : IdentityAdapter) (raw : Bytes) (g : DHGroup) (kp : DHKey) (shared : Bytes)
    (hs : p.kxState = .ActivelyWaitForPublicKey ∨ p.kxState = .PassivelyWaitForPublicKey)
    (hc : p.kxDone.closes = 0) (hg : p.dhGroup = some g) (hk : p.dhKeypair = some kp)
    (hlen : idAdapter.SignatureSize ≤ raw.length)
    (hv : idAdapter.Verify p.adapter.RemoteEndpoint (raw.drop idAdapter.SignatureSize)
      (raw.take idAdapter.SignatureSize) = true)
    (hdh : L.ComputeKey g (raw.drop idAdapter.SignatureSize) kp = .ok shared) :
    p.continueKeyExchange L idAdapter raw =
      (.ok (),
       { adapter :=
           if p.kxState = .PassivelyWaitForPublicKey then
             (p.adapter.SendMessage (prependSimpleSignature idAdapter (L.keyBytes kp))).2
           else p.adapter,
         kxState := .Done, kxDone := ⟨1⟩, dhGroup := none, dhKeypair := none,
         aead := some ⟨(L.Sum256 shared).val⟩, localNonce := p.localNonce,
         remoteNonce := p.remoteNonce, closed := p.closed }) := by
  have hkey : aesNewCipher (L.Sum256 shared).val = .ok ⟨(L.Sum256 shared).val⟩ := by
    simp [aesNewCipher, (L.Sum256 shared).property]
  have hlen2 : ¬ raw.length < idAdapter.SignatureSize := by omega
  unfold EstablishedPeer.continueKeyExchange
  rcases hs with hs | hs <;>
    simp [hs, hlen2, hv, hg, hk, hdh, hkey, cipherNewGCM, AESCipher.BlockSize,
      closeKxDoneAndReturn_open, hc]

theorem establish_passive (L : Lib) (dhGroup : Option DHGroup) (dhKeypair : Option DHKey)
    (idAdapter : IdentityAdapter) (adapter : MessageAdapter) :
    EstablishPeerWithMessageAdapter L dhGroup dhKeypair idAdapter adapter true =
      (.ok { adapter := adapter, kxState := .PassivelyWaitForPublicKey, kxDone := ⟨0⟩,
             dhGroup := dhGroup, dhKeypair := dhKeypair, aead := none, localNonce := 0,
             remoteNonce := 0, closed := false }, adapter) := rfl

theorem establish_active_ok (L : Lib) (dhGroup : Option DHGroup) (kp : DHKey)
    (idAdapter : IdentityAdapter) (adapter : MessageAdapter)
    (h : adapter.sendErr adapter.sent (prependSimpleSignature idAdapter (L.keyBytes kp)) = none) :
    EstablishPeerWithMessageAdapter L dhGroup (some kp) idAdapter adapter false =
      (.ok { adapter := { adapter with
               sent := adapter.sent ++ [prependSimpleSignature idAdapter (L.keyBytes kp)] },
             kxState := .ActivelyWaitForPublicKey, kxDone := ⟨0⟩,
             dhGroup := dhGroup, dhKeypair := some kp, aead := none, localNonce := 0,
             remoteNonce := 0, closed := false },
       { adapter with
           sent := adapter.sent ++ [prependSimpleSignature idAdapter (L.keyBytes kp)] }) := by
  simp [EstablishPeerWithMessageAdapter, MessageAdapter.SendMessage, h, makeChan]

theorem establish_active_error (L : Lib) (dhGroup : Option DHGroup) (kp : DHKey)
    (idAdapter : IdentityAdapter) (adapter : MessageAdapter) (err : GoError)
    (h : adapter.sendErr adapter.sent (prependSimpleSignature idAdapter (L.keyBytes kp))
      = some err) :
    EstablishPeerWithMessageAdapter L dhGroup (some kp) idAdapter adapter false =
      (.error err,
       { adapter with
           sent := adapter.sent ++ [prependSimpleSignature idAdapter (L.keyBytes kp)] }) := by
  simp [EstablishPeerWithMessageAdapter, MessageAdapter.SendMessage, h]

theorem establish_active_inv (L : Lib) (dhGroup : Option DHGroup) (kp : DHKey)
    (idAdapter : IdentityAdapter) (adapter : MessageAdapter) (p : EstablishedPeer)
    (ad : MessageAdapter)
    (h : EstablishPeerWithMessageAdapter L dhGroup (some kp) idAdapter adapter false
      = (.ok p, ad)) :
    adapter.sendErr adapter.sent (prependSimpleSignature idAdapter (L.keyBytes kp)) = none := by
  cases hse : adapter.sendErr adapter.sent (prependSimpleSignature idAdapter (L.keyBytes kp)) with
  | none => rfl
  | some err =>
    rw [establish_active_error L dhGroup kp idAdapter adapter err hse] at h
    simp at h

theorem samplePassivePeer_reachable : Reachable samplePassivePeer :=
  ⟨sampleLib, some sampleGroup, some sampleKeyB, sampleIdentity, sampleAdapter, true,
    samplePassivePeer, sampleAdapter, [], rfl, rfl⟩

theorem sampleActivePeer_reachable : Reachable sampleActivePeer :=
  ⟨sampleLib, some sampleGroup, some sampleKeyA, sampleIdentity, sampleAdapter, false,
    sampleActivePeer, sampleActivePeer.adapter, [], rfl, rfl⟩

theorem continueKeyExchange_secretInv (L : Lib) (p : EstablishedPeer)
    (idAdapter : IdentityAdapter) (raw : Bytes) (h : SecretInv p) :
    SecretInv (p.continueKeyExchange L idAdapter raw).2 := by
  unfold EstablishedPeer.continueKeyExchange
  cases hs : p.kxState <;>
    simp only [SecretInv, hs] at h ⊢ <;>
    (repeat' split) <;>
    (try simp only [failKeyExchange, closeKxDoneAndReturn_state]) <;>
    first
      | exact h
      | (intro hd; rw [hs] at hd; exact absurd hd (by decide))
      | simp

theorem Close_secretInv (p : EstablishedPeer) (h : SecretInv p) : SecretInv p.Close.2 := by
  unfold EstablishedPeer.Close
  cases hs : p.kxState <;>
    simp only [SecretInv, hs] at h ⊢ <;>
    (repeat' split) <;>
    simp_all [closeKxDoneAndReturn_state]

theorem SendMessage_secretInv (L : Lib) (p : EstablishedPeer) (body : Bytes)
    (h : SecretInv p) : SecretInv (p.SendMessage L body).2 := by
  unfold EstablishedPeer.SendMessage
  simp only [SecretInv] at h ⊢
  (repeat' split) <;> simp_all

theorem UnwrapMessage_secretInv (L : Lib) (p : EstablishedPeer) (raw : Bytes)
    (h : SecretInv p) : SecretInv (p.UnwrapMessage L raw).2 := by
  unfold EstablishedPeer.UnwrapMessage
  simp only [SecretInv] at h ⊢
  (repeat' split) <;> simp_all

theorem runCalls_secretInv (calls : List Call) :
    ∀ p : EstablishedPeer, SecretInv p → SecretInv (runCalls p calls) := by
  induction calls with
  | nil => intro p h; exact h
  | cons c cs ih =>
    intro p h
    apply ih
    cases c with
    | continueKeyExchange L idAdapter raw => exact continueKeyExchange_secretInv L p idAdapter raw h
    | Close => exact Close_secretInv p h
    | SendMessage L body => exact SendMessage_secretInv L p body h
    | UnwrapMessage L raw => exact UnwrapMessage_secretInv L p raw h

theorem nonceBuffer_eq (n : Nat) :
    nonceBuffer n =
      [n % 256, n / 256 % 256, n / 256 ^ 2 % 256, n / 256 ^ 3 % 256, n / 256 ^ 4 % 256,
       n / 256 ^ 5 % 256, n / 256 ^ 6 % 256, n / 256 ^ 7 % 256, 0, 0, 0, 0] := by
  simp [nonceBuffer, LittleEndian_PutUint64, Nat.shiftRight_eq_div_pow]

theorem nonceBuffer_injective (m n : Nat) (hm : m < 2 ^ 64) (hn : n < 2 ^ 64)
    (h : nonceBuffer m = nonceBuffer n) : m = n := by
  rw [nonceBuffer_eq, nonceBuffer_eq] at h
  simp only [List.cons.injEq] at h
  obtain ⟨h0, h1, h2, h3, h4, h5, h6, h7, -⟩ := h
  norm_num at h2 h3 h4 h5 h6 h7 hm hn
  omega

theorem SendMessage_localNonce (L : Lib) (p : EstablishedPeer) (body : Bytes) :
    (p.SendMessage L body).2.localNonce = incUint64 p.localNonce := by
  unfold EstablishedPeer.SendMessage
  simp only []
  (repeat' split) <;> rfl

theorem UnwrapMessage_remoteNonce (L : Lib) (p : EstablishedPeer) (raw : Bytes) :
    (p.UnwrapMessage L raw).2.remoteNonce = incUint64 p.remoteNonce := by
  unfold EstablishedPeer.UnwrapMessage
  simp only []
  (repeat' split) <;> rfl

theorem SendMessage_with_cipher (L : Lib) (p : EstablishedPeer) (body : Bytes) (a : AEAD)
    (ha : p.aead = some a) :
    (p.SendMessage L body).2 =
      { p with localNonce := incUint64 p.localNonce,
               adapter := { p.adapter with
                 sent := p.adapter.sent ++ [L.Seal a (nonceBuffer p.localNonce) body] } } := by
  unfold EstablishedPeer.SendMessage
  simp only [ha, MessageAdapter.SendMessage]
  split <;> rfl

theorem sendAll_sent (L : Lib) (a : AEAD) (s0 : Nat) (bodies : List Bytes) :
    ∀ (p : EstablishedPeer) (k : Nat), p.aead = some a →
      p.localNonce = (s0 + k) % 2 ^ 64 →
      (sendAll L p bodies).adapter.sent =
        p.adapter.sent ++ (bodies.enumFrom k).map
          (fun ib => L.Seal a (nonceBuffer ((s0 + ib.1) % 2 ^ 64)) ib.2) := by
  induction bodies with
  | nil => intro p k _ _; simp [sendAll]
  | cons body rest ih =>
    intro p k ha hk
    have hstep := SendMessage_with_cipher L p body a ha
    have hn : (p.SendMessage L body).2.localNonce = (s0 + (k + 1)) % 2 ^ 64 := by
      rw [hstep]
      simp only [incUint64, hk]
      omega
    have ha2 : (p.SendMessage L body).2.aead = some a := by rw [hstep]; exact ha
    rw [sendAll, ih _ (k + 1) ha2 hn, hstep, hk]
    simp [List.enumFrom_cons]

theorem nonceCounter_nonceBuffer (n : Nat) (hn : n < 2 ^ 64) :
    nonceCounter (nonceBuffer n) = n := by
  rw [nonceBuffer_eq]
  simp only [nonceCounter, List.getD_cons_zero, List.getD_cons_succ]
  norm_num at hn ⊢
  omega

theorem incUint64_lt (n : Nat) : incUint64 n < 2 ^ 64 :=
  Nat.mod_lt _ (by norm_num)

theorem sendCounters_eq (L : Lib) (bodies : List Bytes) :
    ∀ p : EstablishedPeer, p.localNonce < 2 ^ 64 →
      sendCounters L p bodies =
        (List.range bodies.length).map (fun i => (p.localNonce + i) % 2 ^ 64) := by
  induction bodies with
  | nil => intro p _; rfl
  | cons body rest ih =>
    intro p hp
    have hn := SendMessage_localNonce L p body
    have hlt : (p.SendMessage L body).2.localNonce < 2 ^ 64 := by
      rw [hn]; exact incUint64_lt _
    rw [sendCounters, ih _ hlt, hn, List.length_cons, List.range_succ_eq_map, List.map_cons,
      List.map_map]
    congr 1
    · simp only [Nat.add_zero]; exact (Nat.mod_eq_of_lt hp).symm
    · apply List.map_congr_left
      intro i _
      simp only [Function.comp, incUint64]
      omega

theorem aesNewCipher_hash (h : Hash32) : aesNewCipher h.val = .ok ⟨h.val⟩ := by
  simp [aesNewCipher, h.property]

theorem cipherNewGCM_ok (c : AESCipher) : cipherNewGCM c = .ok ⟨c.key⟩ := by
  simp [cipherNewGCM, AESCipher.BlockSize]

theorem closeKxDoneAndReturn_ok (p : EstablishedPeer) (r : Result Unit) :
    (closeKxDoneAndReturn p r).1 = .ok () ↔ (p.kxDone.closed = false ∧ r = .ok ()) := by
  unfold closeKxDoneAndReturn
  split <;> simp_all

theorem continueKeyExchange_ok_inv (L : Lib) (p : EstablishedPeer)
    (idAdapter : IdentityAdapter) (raw : Bytes)
    (h : (p.continueKeyExchange L idAdapter raw).2.adapter.sent ≠ p.adapter.sent ∨
      (p.continueKeyExchange L idAdapter raw).1 = .ok ()) :
    ∃ (g : DHGroup) (kp : DHKey) (shared : Bytes),
      p.dhGroup = some g ∧ p.dhKeypair = some kp ∧
      L.ComputeKey g (raw.drop idAdapter.SignatureSize) kp = .ok shared ∧
      (p.continueKeyExchange L idAdapter raw).2.kxState = .Done ∧
      (p.continueKeyExchange L idAdapter raw).2.adapter =
        if p.kxState = .PassivelyWaitForPublicKey then
          (p.adapter.SendMessage (prependSimpleSignature idAdapter (L.keyBytes kp))).2
        else p.adapter := by
  revert h
  unfold EstablishedPeer.continueKeyExchange
  simp only [aesNewCipher_hash, cipherNewGCM_ok]
  cases hs : p.kxState <;> simp only [] <;> (repeat' split) <;>
    simp_all [failKeyExchange, closeKxDoneAndReturn_state, closeKxDoneAndReturn_ok]

/-! ## The completion channel -/

/-- C1: for every session returned by `EstablishPeerWithMessageAdapter` and every finite
sequence of method calls on it (in particular every sequence of `continueKeyExchange` and
`Close` calls, with any inputs and any behaviour of the capabilities), at most one `close`
was executed on `kxDone`, the channel is closed exactly when `kxState` is `Done` or
`Failed`, and no further call panics by closing the closed channel. -/
theorem kxDone_closed_at_most_once (L : Lib) (dhGroup : Option DHGroup)
    (dhKeypair : Option DHKey) (idAdapter : IdentityAdapter) (adapter : MessageAdapter)
    (passive : Bool) (p : EstablishedPeer) (ad : MessageAdapter)
    (hE : EstablishPeerWithMessageAdapter L dhGroup dhKeypair idAdapter adapter passive
      = (.ok p, ad))
    (calls : List Call) :
    (runCalls p calls).kxDone.closes ≤ 1 ∧
    ((runCalls p calls).kxDone.closed = true ↔
      ((runCalls p calls).kxState = .Done ∨ (runCalls p calls).kxState = .Failed)) ∧
    ∀ c : Call, c.panicMsg (runCalls p calls) ≠ some "close of closed channel" := by
  have hinv := runCalls_inv calls p (establish_inv L dhGroup dhKeypair idAdapter adapter passive
    p ad hE).1
  refine ⟨?_, ?_, fun c => (Call_inv _ c hinv).2⟩
  · unfold KxDoneInv at hinv; rw [hinv]; split <;> simp
  · unfold KxDoneInv at hinv
    simp only [Chan.closed, hinv, KeyExchangeState.terminal]
    by_cases ht : (runCalls p calls).kxState = .Done ∨ (runCalls p calls).kxState = .Failed
    · simp [ht]
    · simp [ht]

/-- Witness of C1: an active session, then a too short input, `Close`, and another input. -/
theorem kxDone_closed_at_most_once_witness :
    EstablishPeerWithMessageAdapter sampleLib (some sampleGroup) (some sampleKeyA)
        sampleIdentity sampleAdapter false = (.ok sampleActivePeer, sampleActivePeer.adapter) ∧
    (runCalls sampleActivePeer sampleCalls).kxDone.closes ≤ 1 ∧
    ((runCalls sampleActivePeer sampleCalls).kxDone.closed = true ↔
      ((runCalls sampleActivePeer sampleCalls).kxState = .Done ∨
       (runCalls sampleActivePeer sampleCalls).kxState = .Failed)) ∧
    ∀ c : Call, c.panicMsg (runCalls sampleActivePeer sampleCalls) ≠
      some "close of closed channel" :=
  ⟨rfl, kxDone_closed_at_most_once sampleLib (some sampleGroup) (some sampleKeyA)
    sampleIdentity sampleAdapter false sampleActivePeer sampleActivePeer.adapter rfl sampleCalls⟩

/-! ## The handshake -/

/-- C2: an active session (keypair `keyA`) and a passive session (keypair `keyB`) are
established over the same group; Diffie-Hellman is commutative on the two keypairs and
yields `shared`, signatures have the fixed size, and each side's `Verify` accepts what the
other side's `Sign` produced.  Then the active side sent `Sign(pubA) ++ pubA`; delivering it
to the passive side's `continueKeyExchange` returns no error and sends `Sign(pubB) ++ pubB`;
delivering that to the active side's `continueKeyExchange` returns no error; both sessions
end in `Done` with the same AEAD key `Sum256 shared`. -/
theorem handshake_derives_same_key (L : Lib) (g : DHGroup) (keyA keyB : DHKey)
    (idA idB : IdentityAdapter) (adA adB : MessageAdapter) (pA pB : EstablishedPeer)
    (adA1 adB1 : MessageAdapter) (shared : Bytes)
    (hEA : EstablishPeerWithMessageAdapter L (some g) (some keyA) idA adA false = (.ok pA, adA1))
    (hEB : EstablishPeerWithMessageAdapter L (some g) (some keyB) idB adB true = (.ok pB, adB1))
    (hsize : idA.SignatureSize = idB.SignatureSize)
    (hlenA : (idA.Sign (L.keyBytes keyA)).length = idA.SignatureSize)
    (hlenB : (idB.Sign (L.keyBytes keyB)).length = idB.SignatureSize)
    (hverB : idB.Verify adB.RemoteEndpoint (L.keyBytes keyA) (idA.Sign (L.keyBytes keyA)) = true)
    (hverA : idA.Verify adA.RemoteEndpoint (L.keyBytes keyB) (idB.Sign (L.keyBytes keyB)) = true)
    (hcomm : L.ComputeKey g (L.keyBytes keyB) keyA = L.ComputeKey g (L.keyBytes keyA) keyB)
    (hdh : L.ComputeKey g (L.keyBytes keyA) keyB = .ok shared) :
    pA.adapter.sent = adA.sent ++ [idA.Sign (L.keyBytes keyA) ++ L.keyBytes keyA] ∧
    (pB.continueKeyExchange L idB (idA.Sign (L.keyBytes keyA) ++ L.keyBytes keyA)).1 = .ok () ∧
    (pB.continueKeyExchange L idB (idA.Sign (L.keyBytes keyA) ++ L.keyBytes keyA)).2.adapter.sent
      = adB.sent ++ [idB.Sign (L.keyBytes keyB) ++ L.keyBytes keyB] ∧
    (pA.continueKeyExchange L idA (idB.Sign (L.keyBytes keyB) ++ L.keyBytes keyB)).1 = .ok () ∧
    (pA.continueKeyExchange L idA (idB.Sign (L.keyBytes keyB) ++ L.keyBytes keyB)).2.kxState
      = .Done ∧
    (pB.continueKeyExchange L idB (idA.Sign (L.keyBytes keyA) ++ L.keyBytes keyA)).2.kxState
      = .Done ∧
    (pA.continueKeyExchange L idA (idB.Sign (L.keyBytes keyB) ++ L.keyBytes keyB)).2.aead
      = some ⟨(L.Sum256 shared).val⟩ ∧
    (pB.continueKeyExchange L idB (idA.Sign (L.keyBytes keyA) ++ L.keyBytes keyA)).2.aead
      = some ⟨(L.Sum256 shared).val⟩ := by
  have hsA := establish_active_inv L (some g) keyA idA adA pA adA1 hEA
  rw [establish_active_ok L (some g) keyA idA adA hsA] at hEA
  rw [establish_passive] at hEB
  simp only [Prod.mk.injEq, Result.ok.injEq] at hEA hEB
  have hpA := hEA.1.symm
  have hpB := hEB.1.symm
  have hlenB2 : (idB.Sign (L.keyBytes keyB)).length = idA.SignatureSize := by rw [hlenB, hsize]
  have hlenA2 : (idA.Sign (L.keyBytes keyA)).length = idB.SignatureSize := by rw [hlenA, hsize]
  have hB := continueKeyExchange_success L pB idB
    (idA.Sign (L.keyBytes keyA) ++ L.keyBytes keyA) g keyB shared
    (by rw [hpB]; exact Or.inr rfl) (by rw [hpB]) (by rw [hpB]) (by rw [hpB])
    (by simp only [List.length_append]; omega)
    (by rw [hpB, List.drop_left' hlenA2, List.take_left' hlenA2]; exact hverB)
    (by rw [List.drop_left' hlenA2]; exact hdh)
  have hA := continueKeyExchange_success L pA idA
    (idB.Sign (L.keyBytes keyB) ++ L.keyBytes keyB) g keyA shared
    (by rw [hpA]; exact Or.inl rfl) (by rw [hpA]) (by rw [hpA]) (by rw [hpA])
    (by simp only [List.length_append]; omega)
    (by rw [hpA, List.drop_left' hlenB2, List.take_left' hlenB2]; exact hverA)
    (by rw [List.drop_left' hlenB2, hcomm]; exact hdh)
  rw [hA, hB]
  refine ⟨?_, rfl, ?_, rfl, rfl, rfl, rfl, rfl⟩
  · rw [hpA, prependSimpleSignature_eq idA _ hlenA]
  · rw [hpB]
    simp [MessageAdapter.SendMessage, prependSimpleSignature_eq idB _ hlenB]

/-- Witness of C2: the sample group with keypairs `(6, 8)` and `(15, 19)`; the shared
secret is `2`. -/
theorem handshake_derives_same_key_witness :
    (sampleActivePeer.continueKeyExchange sampleLib sampleIdentity [19, 7, 19]).2.aead
      = some ⟨List.replicate 32 2⟩ ∧
    (samplePassivePeer.continueKeyExchange sampleLib sampleIdentity [8, 7, 8]).2.aead
      = some ⟨List.replicate 32 2⟩ :=
  have h := handshake_derives_same_key sampleLib sampleGroup sampleKeyA sampleKeyB
    sampleIdentity sampleIdentity sampleAdapter sampleAdapter sampleActivePeer
    samplePassivePeer sampleActivePeer.adapter sampleAdapter [2]
    rfl rfl rfl rfl rfl rfl rfl rfl rfl
  ⟨h.2.2.2.2.2.2.1, h.2.2.2.2.2.2.2⟩

/-- C3: a session that is waiting for the peer's public value receives an input that is
long enough but whose signature the identity capability rejects.  The call returns the
error "signature verification failed"; the state is `Failed` and the completion channel
closed; the Diffie-Hellman fields, the cipher and the transport (nothing was sent) are
as before; and the outcome is the same under every library behaviour, so no shared key was
computed. -/
theorem signature_rejected (L : Lib) (p : EstablishedPeer) (idAdapter : IdentityAdapter)
    (raw : Bytes) (hr : Reachable p)
    (hs : p.kxState = .ActivelyWaitForPublicKey ∨ p.kxState = .PassivelyWaitForPublicKey)
    (hlen : idAdapter.SignatureSize ≤ raw.length)
    (hv : idAdapter.Verify p.adapter.RemoteEndpoint (raw.drop idAdapter.SignatureSize)
      (raw.take idAdapter.SignatureSize) = false) :
    p.continueKeyExchange L idAdapter raw =
      (.error (.errorsNew "signature verification failed"),
       { p with kxState := .Failed, kxDone := ⟨1⟩ }) ∧
    (p.continueKeyExchange L idAdapter raw).2.kxDone.closed = true ∧
    (p.continueKeyExchange L idAdapter raw).2.aead = p.aead ∧
    (p.continueKeyExchange L idAdapter raw).2.adapter.sent = p.adapter.sent ∧
    ∀ L2 : Lib, p.continueKeyExchange L2 idAdapter raw = p.continueKeyExchange L idAdapter raw := by
  have hc := KxDoneInv_waiting p (Reachable_inv p hr) hs
  have hlen2 : ¬ raw.length < idAdapter.SignatureSize := by omega
  have key : ∀ L2 : Lib, p.continueKeyExchange L2 idAdapter raw =
      (.error (.errorsNew "signature verification failed"),
       { p with kxState := .Failed, kxDone := ⟨1⟩ }) := by
    intro L2
    unfold EstablishedPeer.continueKeyExchange
    rcases hs with hs | hs <;>
      simp [hs, hlen2, hv, failKeyExchange, closeKxDoneAndReturn_open, hc]
  refine ⟨key L, ?_, ?_, ?_, fun L2 => by rw [key L2, key L]⟩ <;> (rw [key L]; try rfl)

/-- Witness of C3: the passive sample session and an input with a wrong signature. -/
theorem signature_rejected_witness :
    samplePassivePeer.continueKeyExchange sampleLib sampleIdentity [0, 0, 8] =
      (.error (.errorsNew "signature verification failed"),
       { samplePassivePeer with kxState := .Failed, kxDone := ⟨1⟩ }) :=
  (signature_rejected sampleLib samplePassivePeer sampleIdentity [0, 0, 8]
    samplePassivePeer_reachable (Or.inr rfl) (by decide) rfl).1

/-- C4: a session that is waiting for the peer's public value receives an input shorter
than the signature size.  The call returns the error "incomplete message"; the state is
`Failed` and the completion channel closed; nothing was sent; and the outcome is the same
for every `Sign` and `Verify` (so `Verify` was not consulted) and every library.  An input
of at least the signature size never yields the error "incomplete message", whatever the
session. -/
theorem incomplete_message (L : Lib) (p : EstablishedPeer) (idAdapter : IdentityAdapter)
    (raw : Bytes) (hr : Reachable p)
    (hs : p.kxState = .ActivelyWaitForPublicKey ∨ p.kxState = .PassivelyWaitForPublicKey)
    (hlen : raw.length < idAdapter.SignatureSize) :
    p.continueKeyExchange L idAdapter raw =
      (.error (.errorsNew "incomplete message"),
       { p with kxState := .Failed, kxDone := ⟨1⟩ }) ∧
    (p.continueKeyExchange L idAdapter raw).2.kxDone.closed = true ∧
    (p.continueKeyExchange L idAdapter raw).2.adapter.sent = p.adapter.sent ∧
    (∀ (L2 : Lib) (id2 : IdentityAdapter), id2.SignatureSize = idAdapter.SignatureSize →
      p.continueKeyExchange L2 id2 raw = p.continueKeyExchange L idAdapter raw) ∧
    (∀ (L2 : Lib) (q : EstablishedPeer) (id2 : IdentityAdapter) (raw2 : Bytes),
      id2.SignatureSize ≤ raw2.length →
      (q.continueKeyExchange L2 id2 raw2).1 ≠ .error (.errorsNew "incomplete message")) := by
  have hc := KxDoneInv_waiting p (Reachable_inv p hr) hs
  have key : ∀ (L2 : Lib) (id2 : IdentityAdapter), id2.SignatureSize = idAdapter.SignatureSize →
      p.continueKeyExchange L2 id2 raw =
      (.error (.errorsNew "incomplete message"),
       { p with kxState := .Failed, kxDone := ⟨1⟩ }) := by
    intro L2 id2 h2
    unfold EstablishedPeer.continueKeyExchange
    rcases hs with hs | hs <;>
      simp [hs, h2, hlen, failKeyExchange, closeKxDoneAndReturn_open, hc]
  refine ⟨key L idAdapter rfl, ?_, ?_, fun L2 id2 h2 => by rw [key L2 id2 h2, key L idAdapter rfl],
    ?_⟩
  · rw [key L idAdapter rfl]; rfl
  · rw [key L idAdapter rfl]
  · intro L2 q id2 raw2 h2
    have h3 : ¬ raw2.length < id2.SignatureSize := by omega
    unfold EstablishedPeer.continueKeyExchange
    cases hq : q.kxState <;> simp only [h3, if_false] <;> (repeat' split) <;>
      simp [failKeyExchange, closeKxDoneAndReturn]
    all_goals (split <;> simp)

/-- Witness of C4: the active sample session and a one-byte input. -/
theorem incomplete_message_witness :
    sampleActivePeer.continueKeyExchange sampleLib sampleIdentity [3] =
      (.error (.errorsNew "incomplete message"),
       { sampleActivePeer with kxState := .Failed, kxDone := ⟨1⟩ }) :=
  (incomplete_message sampleLib sampleActivePeer sampleIdentity [3]
    sampleActivePeer_reachable (Or.inl rfl) (by decide)).1

/-- C5: `Failed` is terminal.  In state `Failed`, `continueKeyExchange` returns the error
"failed previously" and returns the session unchanged in every field (so nothing was
sent); hence every finite sequence of `continueKeyExchange` calls leaves the session as it
was, and never reaches `Done`. -/
theorem failed_is_terminal (L : Lib) (p : EstablishedPeer) (idAdapter : IdentityAdapter)
    (raw : Bytes) (hs : p.kxState = .Failed) :
    p.continueKeyExchange L idAdapter raw = (.error (.errorsNew "failed previously"), p) ∧
    ∀ calls : List Call, (∀ c ∈ calls, c.isContinueKeyExchange = true) →
      runCalls p calls = p ∧ (runCalls p calls).kxState ≠ .Done := by
  have step : ∀ (L2 : Lib) (id2 : IdentityAdapter) (raw2 : Bytes),
      p.continueKeyExchange L2 id2 raw2 = (.error (.errorsNew "failed previously"), p) := by
    intro L2 id2 raw2
    unfold EstablishedPeer.continueKeyExchange
    simp [hs]
  refine ⟨step L idAdapter raw, ?_⟩
  intro calls
  induction calls with
  | nil => intro _; exact ⟨rfl, by rw [runCalls, hs]; decide⟩
  | cons c cs ih =>
    intro hall
    have hc := hall c (List.mem_cons_self c cs)
    have hcs := ih (fun d hd => hall d (List.mem_cons_of_mem c hd))
    cases c with
    | continueKeyExchange L2 id2 raw2 =>
      have hn : Call.next p (.continueKeyExchange L2 id2 raw2) = p := by
        simp [Call.next, step L2 id2 raw2]
      simp only [runCalls, hn]
      exact hcs
    | Close => simp [Call.isContinueKeyExchange] at hc
    | SendMessage L2 body => simp [Call.isContinueKeyExchange] at hc
    | UnwrapMessage L2 raw2 => simp [Call.isContinueKeyExchange] at hc

/-- Witness of C5: the sample session after it failed on a too short input. -/
theorem failed_is_terminal_witness :
    sampleFailedPeer.continueKeyExchange sampleLib sampleIdentity [19, 7, 19]
      = (.error (.errorsNew "failed previously"), sampleFailedPeer) :=
  (failed_is_terminal sampleLib sampleFailedPeer sampleIdentity [19, 7, 19] rfl).1

/-- C6: secret lifetime.  In every session reachable from `EstablishPeerWithMessageAdapter`
by `continueKeyExchange`, `Close`, `SendMessage` and `UnwrapMessage` calls, state `Done`
implies that `dhGroup` and `dhKeypair` are nil and the AEAD context is set. -/
theorem secrets_dropped_when_done (p : EstablishedPeer) (hr : Reachable p)
    (hd : p.kxState = .Done) :
    p.dhGroup = none ∧ p.dhKeypair = none ∧ p.aead.isSome = true := by
  obtain ⟨L, g, k, idA, ad, passive, p0, ad0, calls, hE, hrun⟩ := hr
  have h := runCalls_secretInv calls p0 (establish_inv L g k idA ad passive p0 ad0 hE).2
  rw [hrun] at h
  exact h hd

/-- Witness of C6: the passive sample session after a completed handshake, a send and a
close. -/
theorem secrets_dropped_when_done_witness :
    (runCalls samplePassivePeer sampleDoneCalls).kxState = .Done ∧
    (runCalls samplePassivePeer sampleDoneCalls).dhGroup = none ∧
    (runCalls samplePassivePeer sampleDoneCalls).dhKeypair = none ∧
    (runCalls samplePassivePeer sampleDoneCalls).aead.isSome = true :=
  ⟨rfl, secrets_dropped_when_done (runCalls samplePassivePeer sampleDoneCalls)
    ⟨sampleLib, some sampleGroup, some sampleKeyB, sampleIdentity, sampleAdapter, true,
      samplePassivePeer, sampleAdapter, sampleDoneCalls, rfl, rfl⟩ rfl⟩

/-! ## Nonces -/

/-- C7: for every 64-bit counter value `n`, the nonce built from it has 12 bytes, byte `i`
for `i < 8` is `n / 256 ^ i % 256`, bytes 8 to 11 are zero, and two 64-bit counter values
with the same nonce are equal.  `SendMessage` seals with the nonce built from `localNonce`
and `UnwrapMessage` opens with the nonce built from `remoteNonce`. -/
theorem nonce_layout (n : Nat) (hn : n < 2 ^ 64) :
    (nonceBuffer n).length = 12 ∧
    (∀ i : Nat, i < 8 → (nonceBuffer n)[i]? = some (n / 256 ^ i % 256)) ∧
    (∀ i : Nat, 8 ≤ i → i < 12 → (nonceBuffer n)[i]? = some 0) ∧
    (∀ m : Nat, m < 2 ^ 64 → nonceBuffer m = nonceBuffer n → m = n) ∧
    (∀ (L : Lib) (p : EstablishedPeer) (body : Bytes) (a : AEAD),
      p.aead = some a → p.localNonce = n →
      (p.SendMessage L body).2.adapter.sent = p.adapter.sent ++ [L.Seal a (nonceBuffer n) body]) ∧
    (∀ (L : Lib) (p : EstablishedPeer) (raw : Bytes) (a : AEAD),
      p.aead = some a → p.remoteNonce = n →
      (p.UnwrapMessage L raw).1 =
        match L.Open a (nonceBuffer n) raw with
        | .ok body => .ok body
        | .error err => .error (.external err)) := by
  refine ⟨by simp [nonceBuffer_eq], ?_, ?_, fun m hm h => nonceBuffer_injective m n hm hn h,
    ?_, ?_⟩
  · intro i hi
    rw [nonceBuffer_eq]
    interval_cases i <;> simp
  · intro i h8 h12
    rw [nonceBuffer_eq]
    interval_cases i <;> simp
  · intro L p body a ha hl
    unfold EstablishedPeer.SendMessage
    simp only [ha, hl]
    split <;> simp [MessageAdapter.SendMessage]
  · intro L p raw a ha hl
    unfold EstablishedPeer.UnwrapMessage
    simp only [ha, hl]
    split <;> simp [*]

/-- Witness of C7: the counter value `258 = 2 + 1 * 256`. -/
theorem nonce_layout_witness :
    nonceBuffer 258 = [2, 1, 0, 0, 0, 0, 0, 0, 0, 0, 0, 0] ∧ (nonceBuffer 258).length = 12 :=
  ⟨by decide, (nonce_layout 258 (by norm_num)).1⟩

/-- Counterexample to C8 as stated: two consecutive `SendMessage` calls that start from
`localNonce = 2 ^ 64 - 1` hand to `Seal` the nonces of the counter values `2 ^ 64 - 1` and
`0`, which are not strictly increasing; the two ciphertexts that reach the transport are
sealed under these two nonces. -/
theorem nonce_monotonicity_counterexample :
    sealedNonces sampleLib sampleWrapPeer [[1], [2]]
      = [nonceBuffer 18446744073709551615, nonceBuffer 0] ∧
    (sealedNonces sampleLib sampleWrapPeer [[1], [2]]).map nonceCounter
      = [18446744073709551615, 0] ∧
    ¬ List.Pairwise (fun a b => a < b)
      ((sealedNonces sampleLib sampleWrapPeer [[1], [2]]).map nonceCounter) ∧
    (sendAll sampleLib sampleWrapPeer [[1], [2]]).adapter.sent
      = sampleWrapPeer.adapter.sent ++
        [sampleLib.Seal ⟨List.replicate 32 2⟩ (nonceBuffer 18446744073709551615) [1],
         sampleLib.Seal ⟨List.replicate 32 2⟩ (nonceBuffer 0) [2]] := by
  have h : (sealedNonces sampleLib sampleWrapPeer [[1], [2]]).map nonceCounter
      = [18446744073709551615, 0] := by decide
  refine ⟨by decide, h, ?_, by decide⟩
  rw [h]
  decide

/-- C8 (amended): for every session with a cipher installed whose `localNonce` is a 64-bit
value `s`, and every `N` consecutive `SendMessage` calls: call `i` hands to `Seal` the nonce
built from `(s + i) % 2 ^ 64`, and the ciphertext sealed under it to the transport; if
`s + N ≤ 2 ^ 64` the counter values carried by the `N` nonces are `s, s + 1, ...`, strictly
increasing; and if `N ≤ 2 ^ 64` the `N` nonces are pairwise distinct. -/
theorem nonce_monotonicity (L : Lib) (p : EstablishedPeer) (bodies : List Bytes) (a : AEAD)
    (ha : p.aead = some a) (hs : p.localNonce < 2 ^ 64) :
    (sendAll L p bodies).adapter.sent =
      p.adapter.sent ++ bodies.enum.map
        (fun ib => L.Seal a (nonceBuffer ((p.localNonce + ib.1) % 2 ^ 64)) ib.2) ∧
    sealedNonces L p bodies =
      (List.range bodies.length).map (fun i => nonceBuffer ((p.localNonce + i) % 2 ^ 64)) ∧
    (p.localNonce + bodies.length ≤ 2 ^ 64 →
      (sealedNonces L p bodies).map nonceCounter
        = (List.range bodies.length).map (fun i => p.localNonce + i) ∧
      List.Pairwise (fun x y => x < y) ((sealedNonces L p bodies).map nonceCounter)) ∧
    (bodies.length ≤ 2 ^ 64 → (sealedNonces L p bodies).Nodup) := by
  have h0 : p.localNonce = (p.localNonce + 0) % 2 ^ 64 := by
    rw [Nat.add_zero, Nat.mod_eq_of_lt hs]
  have hsent := sendAll_sent L a p.localNonce bodies p 0 ha h0
  have hprobe := sendAll_sent (nonceProbe L) a p.localNonce bodies p 0 ha h0
  have hnonces : sealedNonces L p bodies =
      (List.range bodies.length).map (fun i => nonceBuffer ((p.localNonce + i) % 2 ^ 64)) := by
    rw [sealedNonces, hprobe, List.drop_left, ← List.enum_map_fst bodies, List.map_map]
    rfl
  refine ⟨hsent, hnonces, ?_, ?_⟩
  · intro hle
    have h2 : (sealedNonces L p bodies).map nonceCounter
        = (List.range bodies.length).map (fun i => p.localNonce + i) := by
      rw [hnonces, List.map_map]
      apply List.map_congr_left
      intro i hi
      have hi2 := List.mem_range.mp hi
      have hlt : p.localNonce + i < 2 ^ 64 := by omega
      simp only [Function.comp, Nat.mod_eq_of_lt hlt]
      exact nonceCounter_nonceBuffer _ hlt
    refine ⟨h2, ?_⟩
    rw [h2, List.pairwise_map]
    exact (List.pairwise_lt_range _).imp (fun hab => by omega)
  · intro hle
    rw [hnonces]
    refine List.Nodup.map_on ?_ (List.nodup_range _)
    intro i hi j hj hij
    have hi2 := List.mem_range.mp hi
    have hj2 := List.mem_range.mp hj
    have hm := nonceBuffer_injective _ _ (Nat.mod_lt _ (by norm_num)) (Nat.mod_lt _ (by norm_num))
      hij
    omega

/-- Witness of C8 (amended): three sends on the freshly completed sample session are sealed
under the nonces of the counter values `0`, `1` and `2`. -/
theorem nonce_monotonicity_witness :
    (sealedNonces sampleLib sampleDonePeer [[1], [2], [3]]).map nonceCounter = [0, 1, 2] ∧
    (sealedNonces sampleLib sampleDonePeer [[1], [2], [3]]).Nodup ∧
    (sendAll sampleLib sampleDonePeer [[1], [2], [3]]).adapter.sent
      = sampleDonePeer.adapter.sent ++
        [sampleLib.Seal ⟨List.replicate 32 2⟩ (nonceBuffer 0) [1],
         sampleLib.Seal ⟨List.replicate 32 2⟩ (nonceBuffer 1) [2],
         sampleLib.Seal ⟨List.replicate 32 2⟩ (nonceBuffer 2) [3]] :=
  have h := nonce_monotonicity sampleLib sampleDonePeer [[1], [2], [3]]
    ⟨List.replicate 32 2⟩ rfl (by decide)
  ⟨(h.2.2.1 (by decide)).1, h.2.2.2 (by decide), h.1⟩

/-- Counterexample to C9 as stated: with both counters at `2 ^ 64 - 1`, `SendMessage` and
`UnwrapMessage` return without an error, leave the counter at `0` and the session in state
`Done`, so that the next call reuses the nonce of counter value `0`. -/
theorem counter_overflow_counterexample :
    (sampleWrapPeer.SendMessage sampleLib [1]).1 = .ok () ∧
    (sampleWrapPeer.SendMessage sampleLib [1]).2.localNonce = 0 ∧
    (sampleWrapPeer.SendMessage sampleLib [1]).2.kxState = .Done ∧
    (sampleWrapPeer.UnwrapMessage sampleLib
        (sampleLib.Seal ⟨List.replicate 32 2⟩ (nonceBuffer 18446744073709551615) [1])).1
      = .ok [1] ∧
    (sampleWrapPeer.UnwrapMessage sampleLib
        (sampleLib.Seal ⟨List.replicate 32 2⟩ (nonceBuffer 18446744073709551615) [1])).2.remoteNonce
      = 0 ∧
    sendNonces sampleLib sampleWrapPeer [[1], [2]]
      = [nonceBuffer 18446744073709551615, nonceBuffer 0] := by
  refine ⟨rfl, rfl, rfl, rfl, rfl, rfl⟩

/-- C9 (amended): counter overflow is not detected.  When `localNonce` holds `2 ^ 64 - 1`,
`SendMessage` leaves it at `0`, leaves `kxState`, `kxDone` and `closed` as they were, and
(with a cipher installed) seals with the nonce of `2 ^ 64 - 1` and returns the transport's
verdict; when `remoteNonce` holds `2 ^ 64 - 1`, `UnwrapMessage` leaves it at `0`, leaves
`kxState`, `kxDone` and `closed` as they were, and returns what `Open` with the nonce of
`2 ^ 64 - 1` returns.  Neither call fails the session. -/
theorem counter_overflow_wraps (L : Lib) (p : EstablishedPeer) (body raw : Bytes) :
    (p.localNonce = 2 ^ 64 - 1 →
      (p.SendMessage L body).2.localNonce = 0 ∧
      (p.SendMessage L body).2.kxState = p.kxState ∧
      (p.SendMessage L body).2.kxDone = p.kxDone ∧
      (p.SendMessage L body).2.closed = p.closed ∧
      ∀ a : AEAD, p.aead = some a →
        (p.SendMessage L body).2.adapter.sent
          = p.adapter.sent ++ [L.Seal a (nonceBuffer (2 ^ 64 - 1)) body] ∧
        (p.SendMessage L body).1 =
          match p.adapter.sendErr p.adapter.sent (L.Seal a (nonceBuffer (2 ^ 64 - 1)) body) with
          | none => .ok ()
          | some err => .error err) ∧
    (p.remoteNonce = 2 ^ 64 - 1 →
      (p.UnwrapMessage L raw).2.remoteNonce = 0 ∧
      (p.UnwrapMessage L raw).2.kxState = p.kxState ∧
      (p.UnwrapMessage L raw).2.kxDone = p.kxDone ∧
      (p.UnwrapMessage L raw).2.closed = p.closed ∧
      ∀ a : AEAD, p.aead = some a →
        (p.UnwrapMessage L raw).1 =
          match L.Open a (nonceBuffer (2 ^ 64 - 1)) raw with
          | .ok plain => .ok plain
          | .error err => .error (.external err)) := by
  constructor
  · intro h
    refine ⟨by rw [SendMessage_localNonce, h]; decide, ?_, ?_, ?_, ?_⟩
    · unfold EstablishedPeer.SendMessage; simp only []; (repeat' split) <;> rfl
    · unfold EstablishedPeer.SendMessage; simp only []; (repeat' split) <;> rfl
    · unfold EstablishedPeer.SendMessage; simp only []; (repeat' split) <;> rfl
    · intro a ha
      unfold EstablishedPeer.SendMessage
      simp only [ha, h, MessageAdapter.SendMessage]
      split <;> rename_i hq <;> rw [hq] <;> exact ⟨rfl, rfl⟩
  · intro h
    refine ⟨by rw [UnwrapMessage_remoteNonce, h]; decide, ?_, ?_, ?_, ?_⟩
    · unfold EstablishedPeer.UnwrapMessage; simp only []; (repeat' split) <;> rfl
    · unfold EstablishedPeer.UnwrapMessage; simp only []; (repeat' split) <;> rfl
    · unfold EstablishedPeer.UnwrapMessage; simp only []; (repeat' split) <;> rfl
    · intro a ha
      unfold EstablishedPeer.UnwrapMessage
      simp only [ha, h]
      split <;> rename_i hq <;> rw [hq]

/-- Witness of C9 (amended): the completed sample session with both counters at
`2 ^ 64 - 1`. -/
theorem counter_overflow_wraps_witness :
    (sampleWrapPeer.SendMessage sampleLib [1]).2.localNonce = 0 ∧
    (sampleWrapPeer.UnwrapMessage sampleLib [1]).2.remoteNonce = 0 :=
  have h := counter_overflow_wraps sampleLib sampleWrapPeer [1] [1]
  ⟨(h.1 rfl).1, (h.2 rfl).1⟩

/-! ## The signed public value -/

/-- C10: let `pub` be the session's own Diffie-Hellman public value and let `Sign pub` have
the fixed signature size.  In the active role establishment hands `Sign pub ++ pub` to the
transport; if the transport refuses it, establishment returns that error and no session;
otherwise the session is in state `ActivelyWaitForPublicKey`, and `continueKeyExchange` on a
verifying input whose shared key can be computed returns no error, sends nothing more and
ends in `Done` (and no successful call sends anything more).  In the passive role
establishment sends nothing and the state is `PassivelyWaitForPublicKey`;
`continueKeyExchange` on a verifying input whose shared key can be computed returns no
error, sends exactly `Sign pub ++ pub` and ends in `Done`; when the shared key cannot be
computed it sends nothing and ends in `Failed`; and whenever it returns no error or sends at
all, the shared key was computed and what it sent is that one message. -/
theorem signed_public_value_sent_once (L : Lib) (dhGroup : Option DHGroup) (kp : DHKey)
    (idAdapter : IdentityAdapter) (adapter : MessageAdapter)
    (hlen : (idAdapter.Sign (L.keyBytes kp)).length = idAdapter.SignatureSize) :
    (∀ err : GoError,
      adapter.sendErr adapter.sent (idAdapter.Sign (L.keyBytes kp) ++ L.keyBytes kp) = some err →
      (EstablishPeerWithMessageAdapter L dhGroup (some kp) idAdapter adapter false).1
        = .error err ∧
      (EstablishPeerWithMessageAdapter L dhGroup (some kp) idAdapter adapter false).2.sent
        = adapter.sent ++ [idAdapter.Sign (L.keyBytes kp) ++ L.keyBytes kp]) ∧
    (adapter.sendErr adapter.sent (idAdapter.Sign (L.keyBytes kp) ++ L.keyBytes kp) = none →
      ∃ p : EstablishedPeer,
        EstablishPeerWithMessageAdapter L dhGroup (some kp) idAdapter adapter false
          = (.ok p, p.adapter) ∧
        p.kxState = .ActivelyWaitForPublicKey ∧
        p.adapter.sent = adapter.sent ++ [idAdapter.Sign (L.keyBytes kp) ++ L.keyBytes kp] ∧
        (∀ (L2 : Lib) (id2 : IdentityAdapter) (raw : Bytes) (g : DHGroup) (shared : Bytes),
          dhGroup = some g → id2.SignatureSize ≤ raw.length →
          id2.Verify adapter.RemoteEndpoint (raw.drop id2.SignatureSize)
            (raw.take id2.SignatureSize) = true →
          L2.ComputeKey g (raw.drop id2.SignatureSize) kp = .ok shared →
          (p.continueKeyExchange L2 id2 raw).1 = .ok () ∧
          (p.continueKeyExchange L2 id2 raw).2.kxState = .Done ∧
          (p.continueKeyExchange L2 id2 raw).2.adapter.sent
            = adapter.sent ++ [idAdapter.Sign (L.keyBytes kp) ++ L.keyBytes kp]) ∧
        ∀ (L2 : Lib) (id2 : IdentityAdapter) (raw : Bytes),
          (p.continueKeyExchange L2 id2 raw).1 = .ok () →
          (p.continueKeyExchange L2 id2 raw).2.kxState = .Done ∧
          (p.continueKeyExchange L2 id2 raw).2.adapter.sent
            = adapter.sent ++ [idAdapter.Sign (L.keyBytes kp) ++ L.keyBytes kp]) ∧
    (∃ p : EstablishedPeer,
        EstablishPeerWithMessageAdapter L dhGroup (some kp) idAdapter adapter true
          = (.ok p, adapter) ∧
        p.kxState = .PassivelyWaitForPublicKey ∧
        p.adapter.sent = adapter.sent ∧
        (∀ (raw : Bytes) (g : DHGroup) (shared : Bytes),
          dhGroup = some g → idAdapter.SignatureSize ≤ raw.length →
          idAdapter.Verify adapter.RemoteEndpoint (raw.drop idAdapter.SignatureSize)
            (raw.take idAdapter.SignatureSize) = true →
          L.ComputeKey g (raw.drop idAdapter.SignatureSize) kp = .ok shared →
          (p.continueKeyExchange L idAdapter raw).1 = .ok () ∧
          (p.continueKeyExchange L idAdapter raw).2.kxState = .Done ∧
          (p.continueKeyExchange L idAdapter raw).2.adapter.sent
            = adapter.sent ++ [idAdapter.Sign (L.keyBytes kp) ++ L.keyBytes kp]) ∧
        (∀ (raw : Bytes) (g : DHGroup) (err : String),
          dhGroup = some g → idAdapter.SignatureSize ≤ raw.length →
          idAdapter.Verify adapter.RemoteEndpoint (raw.drop idAdapter.SignatureSize)
            (raw.take idAdapter.SignatureSize) = true →
          L.ComputeKey g (raw.drop idAdapter.SignatureSize) kp = .error err →
          (p.continueKeyExchange L idAdapter raw).1 = .error (.external err) ∧
          (p.continueKeyExchange L idAdapter raw).2.kxState = .Failed ∧
          (p.continueKeyExchange L idAdapter raw).2.adapter.sent = adapter.sent) ∧
        (∀ raw : Bytes, (p.continueKeyExchange L idAdapter raw).1 = .ok () →
          (p.continueKeyExchange L idAdapter raw).2.kxState = .Done ∧
          (p.continueKeyExchange L idAdapter raw).2.adapter.sent
            = adapter.sent ++ [idAdapter.Sign (L.keyBytes kp) ++ L.keyBytes kp]) ∧
        (∀ raw : Bytes, (p.continueKeyExchange L idAdapter raw).2.adapter.sent ≠ adapter.sent →
          (∃ (g : DHGroup) (shared : Bytes), dhGroup = some g ∧
            L.ComputeKey g (raw.drop idAdapter.SignatureSize) kp = .ok shared) ∧
          (p.continueKeyExchange L idAdapter raw).2.kxState = .Done ∧
          (p.continueKeyExchange L idAdapter raw).2.adapter.sent
            = adapter.sent ++ [idAdapter.Sign (L.keyBytes kp) ++ L.keyBytes kp])) := by
  have hmsg := prependSimpleSignature_eq idAdapter (L.keyBytes kp) hlen
  refine ⟨?_, ?_, ?_⟩
  · intro err herr
    rw [← hmsg] at herr ⊢
    rw [establish_active_error L dhGroup kp idAdapter adapter err herr]
    exact ⟨rfl, rfl⟩
  · intro hok
    rw [← hmsg] at hok ⊢
    refine ⟨_, establish_active_ok L dhGroup kp idAdapter adapter hok, rfl, rfl, ?_, ?_⟩
    · intro L2 id2 raw g shared hg hl hv hdh
      rw [continueKeyExchange_success L2 _ id2 raw g kp shared (Or.inl rfl) rfl hg rfl hl hv hdh]
      exact ⟨rfl, rfl, by simp⟩
    · intro L2 id2 raw hres
      obtain ⟨g, kp2, shared, -, -, -, hdone, had⟩ :=
        continueKeyExchange_ok_inv L2 _ id2 raw (Or.inr hres)
      refine ⟨hdone, ?_⟩
      rw [had]
      simp
  · rw [← hmsg]
    refine ⟨_, establish_passive L dhGroup (some kp) idAdapter adapter, rfl, rfl, ?_, ?_, ?_, ?_⟩
    · intro raw g shared hg hl hv hdh
      rw [continueKeyExchange_success L _ idAdapter raw g kp shared (Or.inr rfl) rfl hg rfl hl
        hv hdh]
      exact ⟨rfl, rfl, by simp [MessageAdapter.SendMessage]⟩
    · intro raw g err hg hl hv hdh
      have hl2 : ¬ raw.length < idAdapter.SignatureSize := by omega
      have hv2 : idAdapter.Verify adapter.remote (raw.drop idAdapter.SignatureSize)
          (raw.take idAdapter.SignatureSize) = true := hv
      unfold EstablishedPeer.continueKeyExchange
      simp [hl2, hv2, hg, hdh, failKeyExchange, closeKxDoneAndReturn_open,
        MessageAdapter.RemoteEndpoint]
    · intro raw hres
      obtain ⟨g, kp2, shared, -, hk, -, hdone, had⟩ :=
        continueKeyExchange_ok_inv L _ idAdapter raw (Or.inr hres)
      simp only [Option.some.injEq] at hk
      subst hk
      refine ⟨hdone, ?_⟩
      rw [had]
      simp [MessageAdapter.SendMessage]
    · intro raw hsent
      obtain ⟨g, kp2, shared, hg, hk, hdh, hdone, had⟩ :=
        continueKeyExchange_ok_inv L _ idAdapter raw (Or.inl hsent)
      simp only [Option.some.injEq] at hk
      subst hk
      refine ⟨⟨g, shared, hg, hdh⟩, hdone, ?_⟩
      rw [had]
      simp [MessageAdapter.SendMessage]

/-- Witness of C10: the sample keypairs.  Over a transport that refuses every message the
active establishment fails after handing over `[8, 7, 8]`; the passive session, on the
active side's message, answers with its own signed public value `[19, 7, 19]` and is
`Done`; the active session, on that answer, sends nothing more and is `Done`. -/
theorem signed_public_value_sent_once_witness :
    ((EstablishPeerWithMessageAdapter sampleLib (some sampleGroup) (some sampleKeyA)
        sampleIdentity brokenAdapter false).1 = .error (.external "broken pipe") ∧
     (EstablishPeerWithMessageAdapter sampleLib (some sampleGroup) (some sampleKeyA)
        sampleIdentity brokenAdapter false).2.sent = [[8, 7, 8]]) ∧
    (∃ p : EstablishedPeer,
      EstablishPeerWithMessageAdapter sampleLib (some sampleGroup) (some sampleKeyB)
        sampleIdentity sampleAdapter true = (.ok p, sampleAdapter) ∧
      (p.continueKeyExchange sampleLib sampleIdentity [8, 7, 8]).1 = .ok () ∧
      (p.continueKeyExchange sampleLib sampleIdentity [8, 7, 8]).2.kxState = .Done ∧
      (p.continueKeyExchange sampleLib sampleIdentity [8, 7, 8]).2.adapter.sent
        = [[19, 7, 19]]) ∧
    (∃ p : EstablishedPeer,
      EstablishPeerWithMessageAdapter sampleLib (some sampleGroup) (some sampleKeyA)
        sampleIdentity sampleAdapter false = (.ok p, p.adapter) ∧
      (p.continueKeyExchange sampleLib sampleIdentity [19, 7, 19]).1 = .ok () ∧
      (p.continueKeyExchange sampleLib sampleIdentity [19, 7, 19]).2.kxState = .Done ∧
      (p.continueKeyExchange sampleLib sampleIdentity [19, 7, 19]).2.adapter.sent
        = [[8, 7, 8]]) :=
  ⟨(signed_public_value_sent_once sampleLib (some sampleGroup) sampleKeyA sampleIdentity
      brokenAdapter rfl).1 (.external "broken pipe") rfl,
   (signed_public_value_sent_once sampleLib (some sampleGroup) sampleKeyB sampleIdentity
      sampleAdapter rfl).2.2.elim
      (fun p h => ⟨p, h.1, h.2.2.2.1 [8, 7, 8] sampleGroup [2] rfl (by decide) rfl rfl⟩),
   ((signed_public_value_sent_once sampleLib (some sampleGroup) sampleKeyA sampleIdentity
      sampleAdapter rfl).2.1 rfl).elim
      (fun p h => ⟨p, h.1, h.2.2.2.1 sampleLib sampleIdentity [19, 7, 19] sampleGroup [2]
        rfl (by decide) rfl rfl⟩)⟩

/-! ## Frame conditions of the encrypted channel -/

/-- C11: the two nonce counters are independent.  Every `SendMessage` call increases
`localNonce` by one modulo `2 ^ 64` and leaves `remoteNonce`, `kxState`, the cipher, the
closed flag, the completion channel and the Diffie-Hellman fields as they were, whatever the
transport answers; every `UnwrapMessage` call increases `remoteNonce` by one modulo `2 ^ 64`
and leaves every other field as it was, whatever `Open` answers. -/
theorem nonce_counters_independent (L : Lib) (p : EstablishedPeer) (body raw : Bytes) :
    ((p.SendMessage L body).2.localNonce = (p.localNonce + 1) % 2 ^ 64 ∧
     (p.SendMessage L body).2.remoteNonce = p.remoteNonce ∧
     (p.SendMessage L body).2.kxState = p.kxState ∧
     (p.SendMessage L body).2.aead = p.aead ∧
     (p.SendMessage L body).2.closed = p.closed ∧
     (p.SendMessage L body).2.kxDone = p.kxDone ∧
     (p.SendMessage L body).2.dhGroup = p.dhGroup ∧
     (p.SendMessage L body).2.dhKeypair = p.dhKeypair) ∧
    (p.UnwrapMessage L raw).2 = { p with remoteNonce := (p.remoteNonce + 1) % 2 ^ 64 } := by
  constructor
  · unfold EstablishedPeer.SendMessage
    simp only [incUint64]
    (repeat' split) <;> exact ⟨rfl, rfl, rfl, rfl, rfl, rfl, rfl, rfl⟩
  · unfold EstablishedPeer.UnwrapMessage
    simp only [incUint64]
    (repeat' split) <;> rfl

/-! ## Closing a session -/

theorem establish_closeInv (L : Lib) (dhGroup : Option DHGroup) (dhKeypair : Option DHKey)
    (idAdapter : IdentityAdapter) (adapter : MessageAdapter) (passive : Bool)
    (p : EstablishedPeer) (ad : MessageAdapter)
    (h : EstablishPeerWithMessageAdapter L dhGroup dhKeypair idAdapter adapter passive
      = (.ok p, ad)) : CloseInv adapter.closeCalls p := by
  unfold EstablishPeerWithMessageAdapter at h
  cases passive
  · cases dhKeypair with
    | none => simp at h
    | some kp =>
      simp only [Bool.false_eq_true, if_false] at h
      split at h
      · simp at h
      · simp only [Prod.mk.injEq, Result.ok.injEq] at h
        rw [← h.1]; simp [CloseInv, MessageAdapter.SendMessage]
  · simp only [if_true, Prod.mk.injEq, Result.ok.injEq] at h
    rw [← h.1]; simp [CloseInv]

theorem continueKeyExchange_frame (L : Lib) (p : EstablishedPeer)
    (idAdapter : IdentityAdapter) (raw : Bytes) :
    (p.continueKeyExchange L idAdapter raw).2.closed = p.closed ∧
    (p.continueKeyExchange L idAdapter raw).2.adapter.closeCalls = p.adapter.closeCalls ∧
    (p.kxState.terminal = true →
      (p.continueKeyExchange L idAdapter raw).2.kxState.terminal = true) ∧
    (p.kxState.terminal = false →
      (p.continueKeyExchange L idAdapter raw).2.closed = false → p.closed = false) := by
  unfold EstablishedPeer.continueKeyExchange
  cases hs : p.kxState <;>
    simp only [] <;>
    (repeat' split) <;>
    (try simp only [failKeyExchange, closeKxDoneAndReturn_state]) <;>
    simp_all [MessageAdapter.SendMessage, KeyExchangeState.terminal]

theorem continueKeyExchange_closeInv (L : Lib) (p : EstablishedPeer)
    (idAdapter : IdentityAdapter) (raw : Bytes) (c0 : Nat) (h : CloseInv c0 p) :
    CloseInv c0 (p.continueKeyExchange L idAdapter raw).2 := by
  obtain ⟨h1, h2⟩ := h
  obtain ⟨f1, f2, f3, -⟩ := continueKeyExchange_frame L p idAdapter raw
  refine ⟨by rw [f1, f2]; exact h1, fun hc => f3 (h2 (by rw [← f1]; exact hc))⟩

theorem Close_open (p : EstablishedPeer) (hc : p.closed = false) :
    p.Close.2.closed = true ∧
    p.Close.2.adapter.closeCalls = p.adapter.closeCalls + 1 ∧
    (p.kxState = .Done → p.Close.2.kxState = .Done) ∧
    (p.kxState ≠ .Done → p.Close.2.kxState = .Failed) ∧
    (p.kxState.terminal = true → p.Close.2.kxDone = p.kxDone) ∧
    (p.kxState.terminal = false → p.Close.2.kxDone = ⟨p.kxDone.closes + 1⟩) := by
  unfold EstablishedPeer.Close
  cases hs : p.kxState <;>
    simp [hc, hs, closeKxDoneAndReturn_state, MessageAdapter.Close, KeyExchangeState.terminal]

theorem Close_closeInv (p : EstablishedPeer) (c0 : Nat) (h : CloseInv c0 p) :
    CloseInv c0 p.Close.2 := by
  cases hc : p.closed
  · obtain ⟨h1, -⟩ := h
    obtain ⟨f1, f2, f3, f4, -, -⟩ := Close_open p hc
    refine ⟨by rw [f1, f2, h1, hc]; simp, fun _ => ?_⟩
    by_cases hd : p.kxState = .Done
    · rw [f3 hd]; rfl
    · rw [f4 hd]; rfl
  · have : p.Close = (.ok (), p) := by simp [EstablishedPeer.Close, hc]
    rw [this]; exact h

theorem SendMessage_closeInv (L : Lib) (p : EstablishedPeer) (body : Bytes) (c0 : Nat)
    (h : CloseInv c0 p) : CloseInv c0 (p.SendMessage L body).2 := by
  unfold EstablishedPeer.SendMessage
  simp only [CloseInv] at h ⊢
  (repeat' split) <;> simp_all [MessageAdapter.SendMessage]

theorem UnwrapMessage_closeInv (L : Lib) (p : EstablishedPeer) (raw : Bytes) (c0 : Nat)
    (h : CloseInv c0 p) : CloseInv c0 (p.UnwrapMessage L raw).2 := by
  unfold EstablishedPeer.UnwrapMessage
  simp only [CloseInv] at h ⊢
  (repeat' split) <;> simp_all

theorem runCalls_closeInv (c0 : Nat) (calls : List Call) :
    ∀ p : EstablishedPeer, CloseInv c0 p → CloseInv c0 (runCalls p calls) := by
  induction calls with
  | nil => intro p h; exact h
  | cons c cs ih =>
    intro p h
    apply ih
    cases c with
    | continueKeyExchange L idAdapter raw =>
      exact continueKeyExchange_closeInv L p idAdapter raw c0 h
    | Close => exact Close_closeInv p c0 h
    | SendMessage L body => exact SendMessage_closeInv L p body c0 h
    | UnwrapMessage L raw => exact UnwrapMessage_closeInv L p raw c0 h

theorem Close_closed (p : EstablishedPeer) (h : p.closed = true) : p.Close = (.ok (), p) := by
  simp [EstablishedPeer.Close, h]

theorem Close_sets_closed (p : EstablishedPeer) : p.Close.2.closed = true := by
  unfold EstablishedPeer.Close
  cases hc : p.closed
  · simp only [Bool.not_false, if_true]
    split
    · rw [closeKxDoneAndReturn_state]
    · rfl
  · simp [hc]

theorem closeTimes_succ (n : Nat) (p : EstablishedPeer) :
    closeTimes (n + 1) p = p.Close.2 := by
  induction n generalizing p with
  | zero => rfl
  | succ n ih =>
    rw [closeTimes, ih, Close_closed _ (Close_sets_closed p)]

theorem Close_result (p : EstablishedPeer) (h : KxDoneInv p) : p.Close.1 = .ok () := by
  unfold EstablishedPeer.Close
  cases hs : p.kxState <;>
    simp only [KxDoneInv, hs, KeyExchangeState.terminal] at h <;>
    simp at h <;>
    (repeat' split) <;>
    simp_all [closeKxDoneAndReturn_open]

/-- C18: `Close` is idempotent and single-fire.  For every session reached from
`EstablishPeerWithMessageAdapter` by any sequence of calls: `Close` returns normally; a
second `Close` changes nothing, so any positive number of `Close` calls leaves the session
as one call does; after them the transport has seen exactly one `Close` more than before the
session was established; the session is closed; it is `Done` if it was `Done`, and otherwise
`Failed` with the completion channel closed. -/
theorem close_idempotent_single_fire (L : Lib) (dhGroup : Option DHGroup)
    (dhKeypair : Option DHKey) (idAdapter : IdentityAdapter) (adapter : MessageAdapter)
    (passive : Bool) (p0 : EstablishedPeer) (ad : MessageAdapter)
    (hE : EstablishPeerWithMessageAdapter L dhGroup dhKeypair idAdapter adapter passive
      = (.ok p0, ad))
    (calls : List Call) (p : EstablishedPeer) (hp : runCalls p0 calls = p) :
    p.Close.1 = .ok () ∧
    p.Close.2.Close = (.ok (), p.Close.2) ∧
    (∀ n : Nat, closeTimes (n + 1) p = p.Close.2) ∧
    (∀ n : Nat, (closeTimes (n + 1) p).adapter.closeCalls = adapter.closeCalls + 1) ∧
    p.Close.2.closed = true ∧
    (p.kxState = .Done → p.Close.2.kxState = .Done) ∧
    (p.kxState ≠ .Done → p.Close.2.kxState = .Failed ∧ p.Close.2.kxDone.closed = true) := by
  have hk : KxDoneInv p := by
    rw [← hp]
    exact runCalls_inv calls p0
      (establish_inv L dhGroup dhKeypair idAdapter adapter passive p0 ad hE).1
  have hc : CloseInv adapter.closeCalls p := by
    rw [← hp]
    exact runCalls_closeInv _ calls p0
      (establish_closeInv L dhGroup dhKeypair idAdapter adapter passive p0 ad hE)
  have hk2 := (Close_inv p hk).1
  have hc2 := Close_closeInv p _ hc
  have hcl := Close_sets_closed p
  have hcalls : p.Close.2.adapter.closeCalls = adapter.closeCalls + 1 := by
    rw [hc2.1, hcl]; simp
  refine ⟨Close_result p hk, Close_closed _ hcl, fun n => closeTimes_succ n p,
    fun n => by rw [closeTimes_succ]; exact hcalls, hcl, ?_, ?_⟩
  · intro hd
    cases hcp : p.closed
    · exact (Close_open p hcp).2.2.1 hd
    · rw [Close_closed p hcp]; exact hd
  · intro hd
    have hst : p.Close.2.kxState = .Failed := by
      cases hcp : p.closed
      · exact (Close_open p hcp).2.2.2.1 hd
      · rw [Close_closed p hcp]
        have ht := hc.2 hcp
        cases hs : p.kxState <;> simp_all [KeyExchangeState.terminal]
    refine ⟨hst, ?_⟩
    unfold KxDoneInv at hk2
    rw [hst] at hk2
    simp [Chan.closed, hk2, KeyExchangeState.terminal]

/-- Witness of C18: the active sample session, closed right after establishment. -/
theorem close_idempotent_single_fire_witness :
    sampleActivePeer.Close.2.kxState = .Failed ∧
    sampleActivePeer.Close.2.kxDone.closed = true ∧
    (closeTimes 3 sampleActivePeer).adapter.closeCalls = 1 :=
  have h := close_idempotent_single_fire sampleLib (some sampleGroup) (some sampleKeyA)
    sampleIdentity sampleAdapter false sampleActivePeer sampleActivePeer.adapter rfl []
    sampleActivePeer rfl
  ⟨(h.2.2.2.2.2.2 (by decide)).1, (h.2.2.2.2.2.2 (by decide)).2, h.2.2.2.1 2⟩

/-! ## Lock-step delivery -/

theorem UnwrapMessage_with_cipher (L : Lib) (p : EstablishedPeer) (raw plain : Bytes)
    (a : AEAD) (ha : p.aead = some a)
    (ho : L.Open a (nonceBuffer p.remoteNonce) raw = .ok plain) :
    p.UnwrapMessage L raw = (.ok plain, { p with remoteNonce := incUint64 p.remoteNonce }) := by
  unfold EstablishedPeer.UnwrapMessage
  simp only [ha, ho]

/-- C20: lock-step delivery.  Let the AEAD open what it sealed, and let sessions `A` and `B`
hold the same cipher with `A.localNonce = B.remoteNonce`; nonces have 12 bytes.  Then `A.SendMessage body` hands
one ciphertext to the transport, `B.UnwrapMessage` of it returns exactly `body` without an
error, and afterwards `A.localNonce = B.remoteNonce` again (with the same ciphers); so
every finite in-order sequence of messages from `A` is decrypted correctly by `B`.  The
bound `A.localNonce < 2 ^ 64 - 1` of the claim is not needed. -/
theorem lock_step_delivery (L : Lib) (a : AEAD) (A B : EstablishedPeer)
    (hopen : ∀ nonce body : Bytes, nonce.length = 12 →
      L.Open a nonce (L.Seal a nonce body) = .ok body)
    (hA : A.aead = some a) (hB : B.aead = some a) (hn : A.localNonce = B.remoteNonce) :
    (∀ body : Bytes, ∃ cipherText : Bytes,
      (A.SendMessage L body).2.adapter.sent = A.adapter.sent ++ [cipherText] ∧
      (B.UnwrapMessage L cipherText).1 = .ok body ∧
      (A.SendMessage L body).2.localNonce = (B.UnwrapMessage L cipherText).2.remoteNonce ∧
      (A.SendMessage L body).2.aead = some a ∧
      (B.UnwrapMessage L cipherText).2.aead = some a) ∧
    ∀ bodies : List Bytes, deliverInOrder L A B bodies = bodies.map Result.ok := by
  have step : ∀ (A B : EstablishedPeer), A.aead = some a → B.aead = some a →
      A.localNonce = B.remoteNonce → ∀ body : Bytes,
      (A.SendMessage L body).2.adapter.sent
        = A.adapter.sent ++ [L.Seal a (nonceBuffer A.localNonce) body] ∧
      (B.UnwrapMessage L (L.Seal a (nonceBuffer A.localNonce) body)).1 = .ok body ∧
      (A.SendMessage L body).2.localNonce
        = (B.UnwrapMessage L (L.Seal a (nonceBuffer A.localNonce) body)).2.remoteNonce ∧
      (A.SendMessage L body).2.aead = some a ∧
      (B.UnwrapMessage L (L.Seal a (nonceBuffer A.localNonce) body)).2.aead = some a := by
    intro A B hA hB hn body
    have ho : L.Open a (nonceBuffer B.remoteNonce) (L.Seal a (nonceBuffer A.localNonce) body)
        = .ok body := by
      rw [← hn]; exact hopen _ _ (by simp [nonceBuffer_eq])
    rw [SendMessage_with_cipher L A body a hA, UnwrapMessage_with_cipher L B _ body a hB ho]
    exact ⟨rfl, rfl, by simp only [hn], hA, hB⟩
  refine ⟨fun body => ⟨_, step A B hA hB hn body⟩, ?_⟩
  intro bodies
  induction bodies generalizing A B with
  | nil => rfl
  | cons body rest ih =>
    obtain ⟨h1, h2, h3, h4, h5⟩ := step A B hA hB hn body
    rw [deliverInOrder, h1]
    simp only [List.getLast?_append, List.getLast?_singleton, Option.or, List.map_cons]
    rw [h2, ih _ _ h4 h5 h3]

/-- Witness of C20: from the completed active sample session to the completed passive
one. -/
theorem lock_step_delivery_witness :
    deliverInOrder sampleLib sampleActiveDonePeer sampleDonePeer [[1, 2], [], [3]]
      = [.ok [1, 2], .ok [], .ok [3]] :=
  (lock_step_delivery sampleLib ⟨List.replicate 32 2⟩ sampleActiveDonePeer sampleDonePeer
    (by
      intro nonce body h
      simp [sampleLib, List.take_append_eq_append_take, List.drop_append_eq_append_drop, h])
    rfl rfl rfl).2 [[1, 2], [], [3]]

end Protocol

/-! # Peer address filtering: theorems -/

namespace Network

theorem FilterPeers_loop_eq (T : String → Except String String) (peers : List String) :
    ∀ visited filtered : List String,
      FilterPeers.loop T visited filtered peers =
        filtered ++ (firstOccurrences (resolvedPeers T peers)).filter
          (fun y => decide (y ∉ visited)) := by
  induction peers with
  | nil => intro visited filtered; simp [FilterPeers.loop, resolvedPeers, firstOccurrences]
  | cons s rest ih =>
    intro visited filtered
    by_cases hs : s = ""
    · have he : s.isEmpty = true := (String.isEmpty_iff s).mpr hs
      subst hs
      simp [FilterPeers.loop, he, ih, resolvedPeers]
    · have he : s.isEmpty = false := by
        cases h : s.isEmpty
        · rfl
        · exact absurd ((String.isEmpty_iff s).mp h) hs
      cases hr : T s with
      | error e =>
        simp only [FilterPeers.loop, he, hr, ih, resolvedPeers, List.filterMap_cons, hs,
          if_false, Except.toOption, Bool.false_eq_true]
      | ok r =>
        have hres : resolvedPeers T (s :: rest) = r :: resolvedPeers T rest := by
          simp [resolvedPeers, List.filterMap_cons, hs, hr, Except.toOption]
        rw [hres, firstOccurrences]
        by_cases hv : r ∈ visited
        · simp only [FilterPeers.loop, he, hr, hv, if_true, ih, Bool.false_eq_true, if_false]
          congr 1
          rw [List.filter_cons_of_neg (by simpa using hv), List.filter_filter]
          apply List.filter_congr
          intro y _
          by_cases hy : y ∈ visited
          · simp [hy]
          · have : y ≠ r := fun h => hy (h ▸ hv)
            simp [hy, this]
        · simp only [FilterPeers.loop, he, hr, hv, if_false, ih, Bool.false_eq_true]
          rw [List.filter_cons_of_pos (by simpa using hv), List.filter_filter,
            List.append_assoc, List.singleton_append]
          congr 2
          apply List.filter_congr
          intro y _
          by_cases h1 : y = r <;> by_cases h2 : y ∈ visited <;> simp [h1, h2]

theorem firstOccurrences_sublist (l : List String) : (firstOccurrences l).Sublist l := by
  induction l with
  | nil => exact List.Sublist.slnil
  | cons x xs ih =>
    rw [firstOccurrences]
    exact ((List.filter_sublist _).trans ih).cons₂ x

theorem firstOccurrences_nodup (l : List String) : (firstOccurrences l).Nodup := by
  induction l with
  | nil => exact List.nodup_nil
  | cons x xs ih =>
    rw [firstOccurrences, List.nodup_cons]
    exact ⟨by simp [List.mem_filter], ih.filter _⟩

/-- C19: `FilterPeers` equals the reference filter (resolve the non-empty, resolvable
entries in input order, keep every resolved address at its first occurrence only and only
if it differs from `address`); hence its result has no duplicates, does not contain
`address`, and has at most as many elements as `peers`. -/
theorem FilterPeers_eq_reference (ToUnifiedAddress : String → Except String String)
    (address : String) (peers : List String) :
    FilterPeers ToUnifiedAddress address peers
      = FilterPeers_reference ToUnifiedAddress address peers ∧
    (FilterPeers ToUnifiedAddress address peers).Nodup ∧
    address ∉ FilterPeers ToUnifiedAddress address peers ∧
    (FilterPeers ToUnifiedAddress address peers).length ≤ peers.length := by
  have heq : FilterPeers ToUnifiedAddress address peers
      = FilterPeers_reference ToUnifiedAddress address peers := by
    rw [FilterPeers, FilterPeers_loop_eq, FilterPeers_reference, List.nil_append]
    apply List.filter_congr
    intro y _
    simp
  refine ⟨heq, ?_, ?_, ?_⟩
  · rw [heq, FilterPeers_reference]
    exact (firstOccurrences_nodup _).filter _
  · rw [heq, FilterPeers_reference]
    simp [List.mem_filter]
  · rw [heq, FilterPeers_reference]
    calc ((firstOccurrences (resolvedPeers ToUnifiedAddress peers)).filter _).length
        ≤ (firstOccurrences (resolvedPeers ToUnifiedAddress peers)).length :=
          List.length_filter_le _ _
      _ ≤ (resolvedPeers ToUnifiedAddress peers).length :=
          (firstOccurrences_sublist _).length_le
      _ ≤ peers.length := List.length_filterMap_le _ _

end Network

/-! # The connection adapter: theorems -/

namespace Skademlia

open Protocol (Bytes GoError Result MessageAdapter)

/-- C12: for every adapter (with or without a discovery service), every content of the
routing table and every `local`, `EstablishActively(c, local, local)` returns a nil adapter
and an error, and records no call at all (no dial, no lookup); the outcome does not depend
on the dialer, on the routing table or on the package functions. -/
theorem EstablishActively_self (a : ConnectionAdapter) (pkg : Package) (trace : List Event)
    (localID : Bytes) :
    (a.EstablishActively pkg trace localID localID).1.1 = none ∧
    (a.EstablishActively pkg trace localID localID).1.2 ≠ none ∧
    (a.EstablishActively pkg trace localID localID).2 = trace ∧
    ∀ (a2 : ConnectionAdapter) (pkg2 : Package),
      a2.discovery.isSome = a.discovery.isSome →
      a2.EstablishActively pkg2 trace localID localID
        = a.EstablishActively pkg trace localID localID := by
  have key : ∀ (b : ConnectionAdapter) (q : Package),
      b.EstablishActively q trace localID localID =
        ((none, some (.errorsNew (if b.discovery.isSome then
            "skademlia: skip connecting to self pk"
          else "skademlia: connection not setup with a service"))), trace) := by
    intro b q
    unfold ConnectionAdapter.EstablishActively
    cases b.discovery <;> simp
  refine ⟨by rw [key], by rw [key]; simp, by rw [key], ?_⟩
  intro a2 pkg2 h
  rw [key, key, h]

/-- C13: `EstablishActively(c, local, remote)` calls the dialer with an address exactly when
the adapter has a discovery service, `local` differs from `remote`, `local` is the routing
table's own public key, the lookup of `remote` by public key finds a peer, and that peer's
address differs from the table's own address, the address dialled being the found peer's;
the dialer is called at most once; whenever it is not called the result is a nil adapter
with an error, which says "not found in routing table" when `remote` is absent. -/
theorem EstablishActively_dials_iff (a : ConnectionAdapter) (pkg : Package)
    (trace : List Event) (localID remote : Bytes) :
    ∃ events : List Event,
      (a.EstablishActively pkg trace localID remote).2 = trace ++ events ∧
      (∀ address : String, Event.dialer address ∈ events ↔
        ∃ (d : Service) (remotePeer : ID),
          a.discovery = some d ∧ localID ≠ remote ∧ localID = d.Routes.self.PublicKey ∧
          d.Routes.GetPeerFromPublicKey trace remote = some remotePeer ∧
          d.Routes.self.Address ≠ remotePeer.Address ∧ address = remotePeer.Address) ∧
      (events.filter Event.isDial).length ≤ 1 ∧
      ((∀ address : String, Event.dialer address ∉ events) →
        (a.EstablishActively pkg trace localID remote).1.1 = none ∧
        (a.EstablishActively pkg trace localID remote).1.2 ≠ none) ∧
      (∀ d : Service, a.discovery = some d → localID ≠ remote →
        localID = d.Routes.self.PublicKey →
        d.Routes.GetPeerFromPublicKey trace remote = none →
        (a.EstablishActively pkg trace localID remote).1 =
          (none, some (.errorsNew ("skademlia: remote ID " ++ hexEncode remote ++
            " not found in routing table")))) := by
  unfold ConnectionAdapter.EstablishActively
  cases hd : a.discovery with
  | none => exact ⟨[], by simp⟩
  | some d =>
    by_cases h1 : localID = remote
    · exact ⟨[], by simp [h1]⟩
    · by_cases h2 : localID = d.Routes.self.PublicKey
      · cases h3 : d.Routes.GetPeerFromPublicKey trace remote with
        | none =>
          refine ⟨[Event.GetPeerFromPublicKey remote], ?_⟩
          simp [h1, ← h2, h3, Event.isDial]
        | some remotePeer =>
          by_cases h4 : d.Routes.self.Address = remotePeer.Address
          · refine ⟨[Event.GetPeerFromPublicKey remote], ?_⟩
            simp [h1, ← h2, h3, h4, Event.isDial]
          · cases h5 : a.dialer (trace ++ [Event.GetPeerFromPublicKey remote])
                remotePeer.Address with
            | error err =>
              refine ⟨[Event.GetPeerFromPublicKey remote, Event.dialer remotePeer.Address], ?_⟩
              simp [h1, ← h2, h3, h4, h5, Event.isDial]
            | ok conn =>
              refine ⟨[Event.GetPeerFromPublicKey remote, Event.dialer remotePeer.Address,
                Event.NewMessageAdapter conn localID remote d.Routes.self.Address
                  remotePeer.Address false], ?_⟩
              simp [h1, ← h2, h3, h4, h5, Event.isDial]
      · exact ⟨[], by simp [h1, h2]⟩

/-- Witness of C13: from the sample table's own key to the known peer `[2]`; one lookup, one
dial of the peer's address, one adapter. -/
theorem EstablishActively_dials_iff_witness :
    ((sampleConnectionAdapter.EstablishActively samplePackage [] [1] [2]).2.filter
      Event.isDial).length ≤ 1 ∧
    (sampleConnectionAdapter.EstablishActively samplePackage [] [1] [2]).2
      = [Event.GetPeerFromPublicKey [2], Event.dialer "tcp://b:2",
         Event.NewMessageAdapter ⟨7⟩ [1] [2] "tcp://a:1" "tcp://b:2" false] :=
  ⟨(EstablishActively_dials_iff sampleConnectionAdapter samplePackage [] [1] [2]).elim
      (fun events h => by
        rw [h.1, List.nil_append]
        exact h.2.2.1),
    rfl⟩

/-- Counterexample to C14 as stated: over the table whose bucket is full at every `Update`
and with an eviction that reports success, the second `Update` fails and `AddPeerID` returns
that failure instead of dropping it. -/
theorem AddPeerID_counterexample :
    fullConnectionAdapter.AddPeerID samplePackage [] [2] "tcp://b:2" =
      (.error ErrBucketFull,
       [Event.Update ⟨[2], "tcp://b:2", [102]⟩, Event.EvictLastSeenPeer [102],
        Event.Update ⟨[2], "tcp://b:2", [102]⟩]) ∧
    (fullConnectionAdapter.AddPeerID samplePackage [] [2] "tcp://b:2").1 ≠ .ok () := by
  constructor
  · rfl
  · decide

/-- C14 (amended): `AddPeerID` on an adapter with a discovery service calls `Update` once.
If that does not answer `ErrBucketFull`, nothing more is called and no error is returned.
If it answers `ErrBucketFull`, the eviction of the last-seen peer of the target bucket is
attempted; if the eviction did not succeed, no error is returned; if it succeeded, `Update`
is called exactly once more and `AddPeerID` returns what this second `Update` returns. -/
theorem AddPeerID_bounded_effort (a : ConnectionAdapter) (pkg : Package) (trace : List Event)
    (remote : Bytes) (addr : String) (d : Service) (hd : a.discovery = some d) :
    (d.Routes.Update trace (pkg.NewID remote addr) ≠ some ErrBucketFull →
      a.AddPeerID pkg trace remote addr
        = (.ok (), trace ++ [Event.Update (pkg.NewID remote addr)])) ∧
    (d.Routes.Update trace (pkg.NewID remote addr) = some ErrBucketFull →
      (d.EvictLastSeenPeer (trace ++ [Event.Update (pkg.NewID remote addr)])
        (pkg.NewID remote addr).Id).1 = false →
      a.AddPeerID pkg trace remote addr
        = (.ok (), trace ++ [Event.Update (pkg.NewID remote addr),
            Event.EvictLastSeenPeer (pkg.NewID remote addr).Id])) ∧
    (d.Routes.Update trace (pkg.NewID remote addr) = some ErrBucketFull →
      (d.EvictLastSeenPeer (trace ++ [Event.Update (pkg.NewID remote addr)])
        (pkg.NewID remote addr).Id).1 = true →
      a.AddPeerID pkg trace remote addr
        = (match d.Routes.Update (trace ++ [Event.Update (pkg.NewID remote addr),
              Event.EvictLastSeenPeer (pkg.NewID remote addr).Id]) (pkg.NewID remote addr) with
           | some err2 => .error err2
           | none => .ok (),
           trace ++ [Event.Update (pkg.NewID remote addr),
             Event.EvictLastSeenPeer (pkg.NewID remote addr).Id,
             Event.Update (pkg.NewID remote addr)])) := by
  refine ⟨?_, ?_, ?_⟩
  · intro h
    simp [ConnectionAdapter.AddPeerID, hd, h]
  · intro h he
    simp [ConnectionAdapter.AddPeerID, hd, h, he]
  · intro h he
    simp only [ConnectionAdapter.AddPeerID, hd, h, he, if_true, List.append_assoc,
      List.singleton_append]
    split <;> simp_all

/-- Witness of C14 (amended): the sample adapter inserts a new peer with one `Update`. -/
theorem AddPeerID_bounded_effort_witness :
    sampleConnectionAdapter.AddPeerID samplePackage [] [3] "tcp://c:3"
      = (.ok (), [Event.Update ⟨[3], "tcp://c:3", [103]⟩]) :=
  (AddPeerID_bounded_effort sampleConnectionAdapter samplePackage [] [3] "tcp://c:3"
    { Routes := sampleRoutes, EvictLastSeenPeer := fun _ _ => (false, none) } rfl).1
    (by decide)

theorem AddPeerID_error_inv (a : ConnectionAdapter) (pkg : Package) (trace t2 : List Event)
    (remote : Bytes) (addr : String) (d : Service) (err : GoError)
    (hd : a.discovery = some d)
    (h : a.AddPeerID pkg trace remote addr = (.error err, t2)) :
    d.Routes.Update trace (pkg.NewID remote addr) = some ErrBucketFull ∧
    (d.EvictLastSeenPeer (trace ++ [Event.Update (pkg.NewID remote addr)])
      (pkg.NewID remote addr).Id).1 = true ∧
    d.Routes.Update (trace ++ [Event.Update (pkg.NewID remote addr),
      Event.EvictLastSeenPeer (pkg.NewID remote addr).Id]) (pkg.NewID remote addr) = some err ∧
    t2 = trace ++ [Event.Update (pkg.NewID remote addr),
      Event.EvictLastSeenPeer (pkg.NewID remote addr).Id,
      Event.Update (pkg.NewID remote addr)] := by
  obtain ⟨h1, h2, h3⟩ := AddPeerID_bounded_effort a pkg trace remote addr d hd
  by_cases hf : d.Routes.Update trace (pkg.NewID remote addr) = some ErrBucketFull
  · cases he : (d.EvictLastSeenPeer (trace ++ [Event.Update (pkg.NewID remote addr)])
        (pkg.NewID remote addr).Id).1
    · rw [h2 hf he] at h; simp at h
    · rw [h3 hf he] at h
      cases hu : d.Routes.Update (trace ++ [Event.Update (pkg.NewID remote addr),
          Event.EvictLastSeenPeer (pkg.NewID remote addr).Id]) (pkg.NewID remote addr) with
      | none => rw [hu] at h; simp at h
      | some e2 =>
        rw [hu] at h
        simp only [Prod.mk.injEq, Result.error.injEq] at h
        exact ⟨hf, rfl, by rw [h.1], h.2.symm⟩
  · rw [h1 hf] at h; simp at h

theorem AddPeerID_events (a : ConnectionAdapter) (pkg : Package) (trace : List Event)
    (remote : Bytes) (addr : String) :
    ∃ events : List Event, (a.AddPeerID pkg trace remote addr).2 = trace ++ events ∧
      ∀ e ∈ events, e.isInsertion = true := by
  cases hd : a.discovery with
  | none => exact ⟨[], by simp [ConnectionAdapter.AddPeerID, hd]⟩
  | some d =>
    obtain ⟨h1, h2, h3⟩ := AddPeerID_bounded_effort a pkg trace remote addr d hd
    by_cases hf : d.Routes.Update trace (pkg.NewID remote addr) = some ErrBucketFull
    · cases he : (d.EvictLastSeenPeer (trace ++ [Event.Update (pkg.NewID remote addr)])
          (pkg.NewID remote addr).Id).1
      · rw [h2 hf he]
        exact ⟨_, rfl, by simp [Event.isInsertion]⟩
      · rw [h3 hf he]
        exact ⟨_, rfl, by simp [Event.isInsertion]⟩
    · rw [h1 hf]
      exact ⟨_, rfl, by simp [Event.isInsertion]⟩

theorem addPeers_cons_ok (a : ConnectionAdapter) (pkg : Package) (trace t1 : List Event)
    (peer : PeerID) (rest : List PeerID)
    (h : a.AddPeerID pkg trace peer.PublicKey peer.Address = (.ok (), t1)) :
    a.addPeers pkg trace (peer :: rest) = a.addPeers pkg t1 rest := by
  rw [ConnectionAdapter.addPeers, h]

theorem addPeers_cons_error (a : ConnectionAdapter) (pkg : Package) (trace t1 : List Event)
    (peer : PeerID) (rest : List PeerID) (err : GoError)
    (h : a.AddPeerID pkg trace peer.PublicKey peer.Address = (.error err, t1)) :
    a.addPeers pkg trace (peer :: rest) = (.error err, t1) := by
  rw [ConnectionAdapter.addPeers, h]

theorem addPeers_cons_panic (a : ConnectionAdapter) (pkg : Package) (trace t1 : List Event)
    (peer : PeerID) (rest : List PeerID) (msg : String)
    (h : a.AddPeerID pkg trace peer.PublicKey peer.Address = (.panic msg, t1)) :
    a.addPeers pkg trace (peer :: rest) = (.panic msg, t1) := by
  rw [ConnectionAdapter.addPeers, h]

theorem addPeers_append_error (a : ConnectionAdapter) (pkg : Package) (pre post : List PeerID)
    (q : PeerID) (t1 t2 : List Event) (err : GoError) :
    ∀ trace : List Event, a.addPeers pkg trace pre = (.ok (), t1) →
      a.AddPeerID pkg t1 q.PublicKey q.Address = (.error err, t2) →
      a.addPeers pkg trace (pre ++ q :: post) = (.error err, t2) := by
  induction pre with
  | nil =>
    intro trace hpre hq
    simp only [ConnectionAdapter.addPeers, Prod.mk.injEq, true_and] at hpre
    subst hpre
    exact addPeers_cons_error a pkg _ _ q post err hq
  | cons p pre ih =>
    intro trace hpre hq
    rcases hp : a.AddPeerID pkg trace p.PublicKey p.Address with ⟨r, tr⟩
    cases r with
    | ok u =>
      cases u
      rw [addPeers_cons_ok a pkg trace tr p pre hp] at hpre
      rw [List.cons_append, addPeers_cons_ok a pkg trace tr p _ hp]
      exact ih tr hpre hq
    | error e =>
      rw [addPeers_cons_error a pkg trace tr p pre e hp] at hpre
      simp at hpre
    | panic m =>
      rw [addPeers_cons_panic a pkg trace tr p pre m hp] at hpre
      simp at hpre

theorem addPeers_events (a : ConnectionAdapter) (pkg : Package) (peers : List PeerID) :
    ∀ trace : List Event, ∃ events : List Event,
      (a.addPeers pkg trace peers).2 = trace ++ events ∧
      ∀ e ∈ events, e.isInsertion = true := by
  induction peers with
  | nil => intro trace; exact ⟨[], by simp [ConnectionAdapter.addPeers]⟩
  | cons p rest ih =>
    intro trace
    obtain ⟨ev1, h1, h2⟩ := AddPeerID_events a pkg trace p.PublicKey p.Address
    rcases hp : a.AddPeerID pkg trace p.PublicKey p.Address with ⟨r, tr⟩
    rw [hp] at h1
    simp only at h1
    cases r with
    | ok u =>
      cases u
      rw [addPeers_cons_ok a pkg trace tr p rest hp]
      obtain ⟨ev2, h3, h4⟩ := ih tr
      refine ⟨ev1 ++ ev2, by rw [h3, h1, List.append_assoc], ?_⟩
      intro e he
      rcases List.mem_append.mp he with he | he
      · exact h2 e he
      · exact h4 e he
    | error e =>
      rw [addPeers_cons_error a pkg trace tr p rest e hp]
      exact ⟨ev1, h1, h2⟩
    | panic m =>
      rw [addPeers_cons_panic a pkg trace tr p rest m hp]
      exact ⟨ev1, h1, h2⟩

/-- Counterexample to C15 as stated: the first peer is a duplicate of the table's own
identity and `Update` answers an error for it; `Bootstrap` does not return that error, goes
on to insert the second peer, broadcasts the ping and returns no error. -/
theorem Bootstrap_counterexample :
    sampleRoutes.Update [] (samplePackage.NewID [1] "tcp://a:1")
      = some (.external "skademlia: cannot add own identity") ∧
    sampleConnectionAdapter.Bootstrap samplePackage [] [⟨[1], "tcp://a:1"⟩, ⟨[3], "tcp://c:3"⟩]
      = (.ok (), [Event.Update ⟨[1], "tcp://a:1", [101]⟩, Event.Update ⟨[3], "tcp://c:3", [103]⟩,
          Event.Broadcast [0]]) := by
  constructor <;> rfl

/-- C15 (amended): for a fully wired adapter and a peer list `pre ++ q :: post`, if
`AddPeerID` returns no error for the peers of `pre` and returns an error for `q`, then
`Bootstrap` returns that error, which is the error of the second `Update` for `q` (its
first `Update` answered `ErrBucketFull` and the eviction succeeded); the events end with
the three calls made for `q`: no peer of `post` is processed and nothing is broadcast. -/
theorem Bootstrap_first_insertion_error (a : ConnectionAdapter) (pkg : Package)
    (trace : List Event) (n : Node) (d : Service) (hn : a.node = some n)
    (hd : a.discovery = some d) (pre post : List PeerID) (q : PeerID) (t1 t2 : List Event)
    (err : GoError)
    (hpre : a.addPeers pkg trace pre = (.ok (), t1))
    (hq : a.AddPeerID pkg t1 q.PublicKey q.Address = (.error err, t2)) :
    a.Bootstrap pkg trace (pre ++ q :: post) = (.error err, t2) ∧
    d.Routes.Update (t1 ++ [Event.Update (pkg.NewID q.PublicKey q.Address),
      Event.EvictLastSeenPeer (pkg.NewID q.PublicKey q.Address).Id])
      (pkg.NewID q.PublicKey q.Address) = some err ∧
    t2 = t1 ++ [Event.Update (pkg.NewID q.PublicKey q.Address),
      Event.EvictLastSeenPeer (pkg.NewID q.PublicKey q.Address).Id,
      Event.Update (pkg.NewID q.PublicKey q.Address)] ∧
    ∃ events : List Event, t2 = trace ++ events ∧ ∀ e ∈ events, e.isInsertion = true := by
  have hall := addPeers_append_error a pkg pre post q t1 t2 err trace hpre hq
  obtain ⟨-, -, h3, h4⟩ := AddPeerID_error_inv a pkg t1 t2 q.PublicKey q.Address d err hd hq
  refine ⟨?_, h3, h4, ?_⟩
  · unfold ConnectionAdapter.Bootstrap
    simp [hn, hd, hall]
  · obtain ⟨ev, h5, h6⟩ := addPeers_events a pkg (pre ++ q :: post) trace
    rw [hall] at h5
    exact ⟨ev, h5, h6⟩

/-- Witness of C15 (amended): over the full table the first peer already fails. -/
theorem Bootstrap_first_insertion_error_witness :
    fullConnectionAdapter.Bootstrap samplePackage [] [⟨[2], "tcp://b:2"⟩, ⟨[3], "tcp://c:3"⟩]
      = (.error ErrBucketFull,
         [Event.Update ⟨[2], "tcp://b:2", [102]⟩, Event.EvictLastSeenPeer [102],
          Event.Update ⟨[2], "tcp://b:2", [102]⟩]) :=
  (Bootstrap_first_insertion_error fullConnectionAdapter samplePackage [] sampleNode
    { Routes := fullRoutes, EvictLastSeenPeer := fun _ _ => (true, none) } rfl rfl
    [] [⟨[3], "tcp://c:3"⟩] ⟨[2], "tcp://b:2"⟩ [] _ ErrBucketFull rfl rfl).1

/-- Counterexample to C16 as stated: an adapter as `NewConnectionAdapter` returns it, with
no node registered, answers an error to `Bootstrap` with an empty peer list. -/
theorem Bootstrap_empty_counterexample :
    unwiredConnectionAdapter.Bootstrap samplePackage [] []
      = (.error (.errorsNew "node not setup properly"), []) := rfl

/-- C16 (amended): for every adapter, `Bootstrap` with an empty peer list has no effect (no
routing-table update, no eviction, no broadcast); it returns no error when the adapter has
both its node and its discovery service, the error "node not setup properly" when it has no
node, and the error "discovery not setup properly" when it has a node but no discovery
service. -/
theorem Bootstrap_empty (a : ConnectionAdapter) (pkg : Package) (trace : List Event) :
    (a.Bootstrap pkg trace []).2 = trace ∧
    (∀ (n : Node) (d : Service), a.node = some n → a.discovery = some d →
      (a.Bootstrap pkg trace []).1 = .ok ()) ∧
    (a.node = none →
      (a.Bootstrap pkg trace []).1 = .error (.errorsNew "node not setup properly")) ∧
    (∀ n : Node, a.node = some n → a.discovery = none →
      (a.Bootstrap pkg trace []).1 = .error (.errorsNew "discovery not setup properly")) := by
  unfold ConnectionAdapter.Bootstrap
  cases hn : a.node <;> cases hd : a.discovery <;> simp

/-- Witness of C16 (amended): the fully wired sample adapter. -/
theorem Bootstrap_empty_witness :
    sampleConnectionAdapter.Bootstrap samplePackage [Event.Broadcast [9]] []
      = (.ok (), [Event.Broadcast [9]]) :=
  have h := Bootstrap_empty sampleConnectionAdapter samplePackage [Event.Broadcast [9]]
  Prod.ext (h.2.1 sampleNode
    { Routes := sampleRoutes, EvictLastSeenPeer := fun _ _ => (false, none) } rfl rfl) h.1

end Skademlia
